import Mathlib

/-!
Verification of the CardPT repository: a shallow embedding of the poker
engine (`src/engine/engine.ts`, `state.ts`, `types.ts`, `evaluate.ts`,
`deck.js`, `rng.js`) and of the LLM decision pipeline
(`proposeDecision`, `validateDecision`, `enforceSemanticGate` and the
shared configuration modules), together with theorems settling the
specification claims.

Conventions of the embedding:
* JS numbers used as chip amounts, weights and confidences are embedded
  as rationals (`ℚ`); machine 32-bit arithmetic in the RNG is embedded
  as `Nat` arithmetic with explicit `% 2^32` truncation.
* Thrown JS errors become `Except String` with the source message text.
* Mutable state becomes explicit state passing; the mutable event log is
  returned as a list of freshly appended events.
-/

set_option maxRecDepth 100000

namespace CardPT

namespace Eng

/-- Suits, in the order of `SUITS` in `deck.js`. -/
inductive Suit where
  | c | d | h | s
deriving DecidableEq, Repr

/-- Ranks, in the order of `RANKS` in `deck.js`. -/
inductive Rank where
  | r2 | r3 | r4 | r5 | r6 | r7 | r8 | r9 | rT | rJ | rQ | rK | rA
deriving DecidableEq, Repr

structure Card where
  rank : Rank
  suit : Suit
deriving DecidableEq, Repr

def SUITS : List Suit := [.c, .d, .h, .s]

def RANKS : List Rank :=
  [.r2, .r3, .r4, .r5, .r6, .r7, .r8, .r9, .rT, .rJ, .rQ, .rK, .rA]

/-- `createDeck` from `deck.js`: suits outer loop, ranks inner loop. -/
def createDeck : List Card :=
  SUITS.flatMap fun suit => RANKS.map fun rank => ⟨rank, suit⟩

/-- `fnv1a32` from `rng.js`.  `Math.imul(h, 0x01000193) >>> 0` is the low
32 bits of the product; `hash ^= input.charCodeAt(i)` is a bitwise xor of
32-bit values. -/
def fnv1a32 (input : String) : Nat :=
  input.data.foldl
    (fun hash c => ((hash ^^^ c.toNat) * 0x01000193) % 4294967296)
    0x811c9dc5

/-- One step of the xorshift32 stream from `createRng` in `rng.js`.  Each
`<<` result is truncated to 32 bits (JS int32 coercion); `>>>` operates on
the 32-bit value. -/
def xorshift32 (state : Nat) : Nat :=
  let s1 := (state ^^^ ((state <<< 13) % 4294967296)) % 4294967296
  let s2 := s1 ^^^ (s1 >>> 17)
  (s2 ^^^ ((s2 <<< 5) % 4294967296)) % 4294967296

/-- Initial RNG state from `createRng`: `fnv1a32(seed) || 0x6d2b79f5`
(the fallback applies exactly when the hash is 0, the only falsy Nat). -/
def createRngState (seed : String) : Nat :=
  let h := fnv1a32 seed
  if h = 0 then 0x6d2b79f5 else h

/-- Swap two positions of a list (both in range in every use). -/
def listSwap {α : Type} (l : List α) (i j : Nat) : List α :=
  match l.get? i, l.get? j with
  | some a, some b => (l.set i b).set j a
  | _, _ => l

/-- The Fisher–Yates loop of `shuffleDeck` in `deck.js`, counting the
current index down from `deck.length - 1` to 1.  `rng.nextInt(i + 1)` is
the next xorshift32 output modulo `i + 1`. -/
def fisherYates (deck : List Card) (state : Nat) : Nat → List Card
  | 0 => deck
  | Nat.succ n =>
      let s := xorshift32 state
      let j := s % (n + 2)
      fisherYates (listSwap deck (n + 1) j) s n

/-- `shuffleDeck` from `deck.js`. -/
def shuffleDeck (cards : List Card) (seedState : Nat) : List Card :=
  fisherYates cards seedState (cards.length - 1)

inductive Phase where
  | preflop | flop | turn | river | showdown | ended
deriving DecidableEq, Repr

inductive PlayerStatus where
  | active | folded | all_in | out
deriving DecidableEq, Repr

structure PlayerState where
  seat : Nat
  stack : ℚ
  totalCommitted : ℚ
  streetCommitted : ℚ
  status : PlayerStatus
  holeCards : List Card
deriving DecidableEq, Repr

instance : Inhabited PlayerState :=
  ⟨⟨0, 0, 0, 0, .active, []⟩⟩

structure Pot where
  amount : ℚ
  eligibleSeats : List Nat
deriving DecidableEq, Repr

inductive ActionType where
  | fold | check | call | bet | raise
deriving DecidableEq, Repr

structure Action where
  actor : Nat
  type : ActionType
  amount : Option ℚ
deriving DecidableEq, Repr

structure LegalAction where
  type : ActionType
  minAmount : Option ℚ
  maxAmount : Option ℚ
deriving DecidableEq, Repr

structure GameConfig where
  seed : String
  startingStacks : List ℚ
  smallBlind : ℚ
  bigBlind : ℚ
deriving DecidableEq, Repr

structure GameState where
  handId : Nat
  dealerSeat : Nat
  smallBlindSeat : Nat
  bigBlindSeat : Nat
  actionSeat : Nat
  phase : Phase
  board : List Card
  deck : List Card
  burn : List Card
  players : List PlayerState
  pots : List Pot
  currentBet : ℚ
  minRaiseTo : ℚ
  lastRaiseSize : ℚ
  actionsThisStreet : Nat
  canRaise : List Bool
  hasActedThisRound : List Bool
  betThisRound : List ℚ
deriving DecidableEq, Repr

inductive EventType where
  | hand_started | blind_posted | action_taken | street_dealt
  | pot_awarded | hand_ended | hand_summary
deriving DecidableEq, Repr

/-- Payload of an engine event (`data` field in `types.ts`). -/
inductive EventData where
  | handStarted (dealerSeat smallBlindSeat bigBlindSeat : Nat)
  | blindPosted (seat : Nat) (amount : ℚ)
  | actionTaken (action : Action)
  | streetDealt (phase : Phase) (board : List Card)
  | potAwardedUncontested (seat : Nat) (amount : ℚ)
  | potAwarded (seat : Nat) (amount : ℚ) (potIndex : Nat)
  | handSummary (showdown : List (Nat × String))
      (pots : List (Nat × ℚ × List Nat × List (Nat × ℚ)))
  | handEnded
deriving DecidableEq, Repr

structure Event where
  type : EventType
  handId : Nat
  data : EventData
deriving DecidableEq, Repr

/-- `createInitialState` from `state.ts`; the length check on
`startingStacks` throws. -/
def createInitialState (config : GameConfig) : Except String GameState := do
  if config.startingStacks.length ≠ 6 then
    throw "startingStacks must have 6 entries."
  let players : List PlayerState :=
    (List.range 6).map fun seat =>
      { seat := seat
        stack := config.startingStacks.getD seat 0
        totalCommitted := 0
        streetCommitted := 0
        status := .active
        holeCards := [] }
  pure
    { handId := 1
      dealerSeat := 0
      smallBlindSeat := 1
      bigBlindSeat := 2
      actionSeat := 3
      phase := .preflop
      board := []
      deck := []
      burn := []
      players := players
      pots := []
      currentBet := 0
      minRaiseTo := config.bigBlind
      lastRaiseSize := config.bigBlind
      actionsThisStreet := 0
      canRaise := (List.range 6).map fun _ => true
      hasActedThisRound := []
      betThisRound := [] }

structure HandRank where
  category : Nat
  ranks : List Nat
deriving DecidableEq, Repr

/-- `RANK_VALUE` from `evaluate.ts`. -/
def rankValue : Rank → Nat
  | .r2 => 2 | .r3 => 3 | .r4 => 4 | .r5 => 5 | .r6 => 6 | .r7 => 7
  | .r8 => 8 | .r9 => 9 | .rT => 10 | .rJ => 11 | .rQ => 12 | .rK => 13
  | .rA => 14

/-- The tiebreak loop of `compareRank`: `a.ranks[i] ?? 0` pads with 0. -/
def cmpRanksLex : List Nat → List Nat → Int
  | [], [] => 0
  | a :: as, [] =>
      if a ≠ 0 then (a : Int) - 0 else cmpRanksLex as []
  | [], b :: bs =>
      if b ≠ 0 then (0 : Int) - b else cmpRanksLex [] bs
  | a :: as, b :: bs =>
      if a ≠ b then (a : Int) - b else cmpRanksLex as bs

/-- `compareRank` from `evaluate.ts`. -/
def compareRank (a b : HandRank) : Int :=
  if a.category ≠ b.category then (a.category : Int) - b.category
  else cmpRanksLex a.ranks b.ranks

/-- `compareHands` from `evaluate.ts`. -/
def compareHands (a b : HandRank) : Int := compareRank a b

/-- Insert into a list sorted descending (used to model the JS numeric
descending sorts on small lists). -/
def insertDesc (x : Nat) : List Nat → List Nat
  | [] => [x]
  | y :: ys => if x ≥ y then x :: y :: ys else y :: insertDesc x ys

def sortDesc (l : List Nat) : List Nat := l.foldr insertDesc []

/-- First-occurrence deduplication (JS `new Set` preserves insertion
order). -/
def dedupAux : List Nat → List Nat → List Nat
  | [], _ => []
  | x :: xs, seen =>
      if x ∈ seen then dedupAux xs seen else x :: dedupAux xs (x :: seen)

def dedupKeepFirst (l : List Nat) : List Nat := dedupAux l []

/-- Check that `slice` counts down by one from its head. -/
def isConsecDesc : List Nat → Bool
  | [] => true
  | [_] => true
  | a :: b :: rest => (b + 1 = a) && isConsecDesc (b :: rest)

/-- `isStraight` from `evaluate.ts`.  `values` arrives sorted descending;
`uniq` is its deduplication re-sorted descending. -/
def isStraight (values : List Nat) : Option Nat :=
  let uniq := sortDesc (dedupKeepFirst values)
  if uniq.length < 5 then none
  else
    let starts := List.range (uniq.length - 5 + 1)
    match starts.find? (fun i => isConsecDesc ((uniq.drop i).take 5)) with
    | some i => some ((uniq.drop i).headD 0)
    | none =>
        if [14, 5, 4, 3, 2].all (fun v => uniq.contains v) then some 5
        else none

structure RankGroup where
  rank : Nat
  count : Nat
deriving DecidableEq, Repr

/-- Run-length groups of a descending-sorted value list; this reproduces
the `Map` built in `evaluate5` (insertion order = first occurrence). -/
def countRuns : List Nat → List RankGroup
  | [] => []
  | x :: xs =>
      match countRuns xs with
      | [] => [⟨x, 1⟩]
      | g :: gs => if g.rank = x then ⟨x, g.count + 1⟩ :: gs
                   else ⟨x, 1⟩ :: g :: gs

/-- Comparator of the `groups` sort in `evaluate5`: count descending,
then rank descending. -/
def groupLE (a b : RankGroup) : Bool :=
  if a.count ≠ b.count then a.count > b.count else a.rank ≥ b.rank

def insertGroup (x : RankGroup) : List RankGroup → List RankGroup
  | [] => [x]
  | y :: ys => if groupLE x y then x :: y :: ys else y :: insertGroup x ys

def sortGroups (l : List RankGroup) : List RankGroup :=
  l.foldr insertGroup []

/-- `evaluate5` from `evaluate.ts`. -/
def evaluate5 (cards : List Card) : HandRank :=
  let values := sortDesc (cards.map fun c => rankValue c.rank)
  let suits := cards.map Card.suit
  let flush := match suits with
    | [] => true
    | s0 :: _ => suits.all (· = s0)
  let groups := sortGroups (countRuns values)
  let straightHigh := isStraight values
  let g0 := groups.getD 0 ⟨0, 0⟩
  let g1 := groups.getD 1 ⟨0, 0⟩
  if straightHigh.isSome && flush then
    { category := 8, ranks := [straightHigh.getD 0] }
  else if g0.count = 4 then
    { category := 7, ranks := [g0.rank, g1.rank] }
  else if g0.count = 3 && g1.count = 2 then
    { category := 6, ranks := [g0.rank, g1.rank] }
  else if flush then
    { category := 5, ranks := values }
  else if straightHigh.isSome then
    { category := 4, ranks := [straightHigh.getD 0] }
  else if g0.count = 3 then
    let kickers := sortDesc ((groups.drop 1).map RankGroup.rank)
    { category := 3, ranks := g0.rank :: kickers }
  else if g0.count = 2 && g1.count = 2 then
    let g2 := groups.getD 2 ⟨0, 0⟩
    { category := 2
      ranks := [max g0.rank g1.rank, min g0.rank g1.rank, g2.rank] }
  else if g0.count = 2 then
    let kickers := sortDesc ((groups.drop 1).map RankGroup.rank)
    { category := 1, ranks := g0.rank :: kickers }
  else
    { category := 0, ranks := values }

/-- The index 5-tuples enumerated by the nested loops of `evaluate7`, in
loop order. -/
def combos7 : List (Nat × Nat × Nat × Nat × Nat) :=
  (List.range 3).flatMap fun a =>
  (List.range' (a + 1) (3 - a)).flatMap fun b =>
  (List.range' (b + 1) (4 - b)).flatMap fun c =>
  (List.range' (c + 1) (5 - c)).flatMap fun d =>
  (List.range' (d + 1) (6 - d)).map fun e => (a, b, c, d, e)

/-- `evaluate7` from `evaluate.ts`; throws unless given exactly 7 cards. -/
def evaluate7 (cards : List Card) : Except String HandRank := do
  if cards.length ≠ 7 then
    throw "evaluate7 requires exactly 7 cards."
  let bad : Card := ⟨.r2, .c⟩
  let best := combos7.foldl
    (fun (best : Option HandRank) (ix : Nat × Nat × Nat × Nat × Nat) =>
      let (a, b, c, d, e) := ix
      let rank := evaluate5
        [cards.getD a bad, cards.getD b bad, cards.getD c bad,
         cards.getD d bad, cards.getD e bad]
      match best with
      | none => some rank
      | some bst => if compareRank rank bst > 0 then some rank else some bst)
    none
  match best with
  | some r => pure r
  | none => throw "evaluate7 requires exactly 7 cards."

/-- `nextSeat` from `engine.ts`. -/
def nextSeat (seat : Nat) : Nat := (seat + 1) % 6

def countEligiblePlayers (players : List PlayerState) : Nat :=
  (players.filter fun p => p.status ≠ .folded ∧ p.status ≠ .out).length

def getPlayerD (s : GameState) (seat : Nat) : PlayerState :=
  s.players.getD seat default

/-- The 6-iteration scan of `firstActiveFrom`. -/
def firstActiveFromAux (s : GameState) : Nat → Nat → Option Nat
  | _, 0 => none
  | seat, Nat.succ n =>
      let p := getPlayerD s seat
      if p.status = .active ∧ p.stack > 0 then some seat
      else firstActiveFromAux s (nextSeat seat) n

def firstActiveFrom (s : GameState) (start : Nat) : Option Nat :=
  firstActiveFromAux s start 6

/-- `resetStreet` from `engine.ts`. -/
def resetStreet (s : GameState) (config : GameConfig) : GameState :=
  let players := s.players.map fun p => { p with streetCommitted := 0 }
  { s with
    players := players
    canRaise := players.map fun p => p.status = .active ∧ p.stack > 0
    betThisRound := players.map fun _ => 0
    hasActedThisRound := players.map fun p =>
      p.status = .all_in ∨ p.status = .out
    currentBet := 0
    lastRaiseSize := config.bigBlind
    minRaiseTo := config.bigBlind
    actionsThisStreet := 0 }

/-- `postBlind` from `engine.ts`; returns the posted amount. -/
def postBlind (s : GameState) (seat : Nat) (amount : ℚ) :
    GameState × ℚ :=
  let p := getPlayerD s seat
  let posted := min p.stack amount
  let p1 := { p with
    stack := p.stack - posted
    totalCommitted := p.totalCommitted + posted
    streetCommitted := p.streetCommitted + posted }
  let s1 := { s with
    players := s.players.set seat p1
    betThisRound := s.betThisRound.set seat p1.streetCommitted }
  if p1.stack = (0 : ℚ) then
    ({ s1 with
        players := s1.players.set seat { p1 with status := .all_in }
        hasActedThisRound := s1.hasActedThisRound.set seat true }, posted)
  else (s1, posted)

/-- `dealToSeat` from `engine.ts` (`deck.shift()` takes the head). -/
def dealToSeat (s : GameState) (seat : Nat) :
    Nat → Except String GameState
  | 0 => pure s
  | Nat.succ n =>
      match s.deck with
      | [] => throw "Deck exhausted."
      | card :: rest =>
          let p := getPlayerD s seat
          dealToSeat
            { s with
              deck := rest
              players := s.players.set seat
                { p with holeCards := p.holeCards ++ [card] } }
            seat n

def dealBoardAux (s : GameState) : Nat → Except String GameState
  | 0 => pure s
  | Nat.succ n =>
      match s.deck with
      | [] => throw "Deck exhausted."
      | card :: rest =>
          dealBoardAux { s with deck := rest, board := s.board ++ [card] } n

/-- `dealBoard` from `engine.ts`: burn one card, then reveal `count`. -/
def dealBoard (s : GameState) (count : Nat) : Except String GameState :=
  match s.deck with
  | [] => throw "Deck exhausted."
  | burn :: rest =>
      dealBoardAux { s with deck := rest, burn := s.burn ++ [burn] } count

def dedupQAux : List ℚ → List ℚ → List ℚ
  | [], _ => []
  | x :: xs, seen =>
      if x ∈ seen then dedupQAux xs seen else x :: dedupQAux xs (x :: seen)

def insertAscQ (x : ℚ) : List ℚ → List ℚ
  | [] => [x]
  | y :: ys => if x ≤ y then x :: y :: ys else y :: insertAscQ x ys

def sortAscQ (l : List ℚ) : List ℚ := l.foldr insertAscQ []

/-- `computePots` from `engine.ts`. -/
def computePots (players : List PlayerState) : List Pot :=
  let commitments := players.map (·.totalCommitted)
  let uniqueLevels := sortAscQ (dedupQAux (commitments.filter (0 < ·)) [])
  (uniqueLevels.foldl
    (fun (acc : List Pot × ℚ) level =>
      let contributors := players.filter fun p => p.totalCommitted ≥ level
      let amount := (level - acc.2) * contributors.length
      let eligibleSeats :=
        (contributors.filter fun p =>
          p.status ≠ .folded ∧ p.status ≠ .out).map (·.seat)
      (acc.1 ++ [⟨amount, eligibleSeats⟩], level))
    ([], 0)).1

def bumpPayout (seat : Nat) : List (Nat × ℚ) → List (Nat × ℚ)
  | [] => []
  | (w, q) :: rest =>
      if w = seat then (w, q + 1) :: rest else (w, q) :: bumpPayout seat rest

/-- The odd-chip `while` loop of `distributeOddChips`, with enough fuel to
cover the terminating runs of the source. -/
def oddChipLoop (winners : List Nat) (remainder : ℚ) :
    List (Nat × ℚ) → Nat → Nat → Nat → List (Nat × ℚ)
  | payouts, _, _, 0 => payouts
  | payouts, seat, awarded, Nat.succ fuel =>
      if (awarded : ℚ) < remainder then
        if winners.contains seat then
          oddChipLoop winners remainder (bumpPayout seat payouts)
            (nextSeat seat) (awarded + 1) fuel
        else
          oddChipLoop winners remainder payouts (nextSeat seat) awarded fuel
      else payouts

/-- `distributeOddChips` from `engine.ts`.  Payouts are an association
list in the insertion order of the source's record (the winners order).
`Math.floor(total / winners.length)` and `total % winners.length` are the
rational floor and the corresponding remainder for the non-negative
totals that occur. -/
def distributeOddChips (total : ℚ) (winners : List Nat)
    (dealerSeat : Nat) : List (Nat × ℚ) :=
  let n := winners.length
  let per : ℚ := ((total / (n : ℚ)).floor : ℚ)
  let remainder := total - per * n
  let payouts := winners.map fun w => (w, per)
  oddChipLoop winners remainder payouts (nextSeat dealerSeat) 0
    (6 * (remainder.ceil.toNat + 1) + 6)

def lookupSeatRank (seatRanks : List (Nat × HandRank)) (seat : Nat) :
    Option HandRank :=
  (seatRanks.find? fun e => e.1 = seat).map (·.2)

/-- `resolveShowdown` from `engine.ts`: pots, per-pot payout results and
the seat-rank cache (association list in first-assignment order). -/
def resolveShowdown (s : GameState) :
    Except String
      (List Pot × List (Nat × List (Nat × ℚ)) × List (Nat × HandRank)) := do
  let pots := computePots s.players
  let mut results : List (Nat × List (Nat × ℚ)) := []
  let mut seatRanks : List (Nat × HandRank) := []
  let mut i := 0
  for pot in pots do
    let contenders := pot.eligibleSeats
    if contenders.length = 0 then
      i := i + 1
    else
      let mut bestRank : Option HandRank := none
      let mut winners : List Nat := []
      for seat in contenders do
        let player := getPlayerD s seat
        let rank ←
          match lookupSeatRank seatRanks seat with
          | some r => pure r
          | none => evaluate7 (player.holeCards ++ s.board)
        if lookupSeatRank seatRanks seat = none then
          seatRanks := seatRanks ++ [(seat, rank)]
        match bestRank with
        | none =>
            bestRank := some rank
            winners := [seat]
        | some best =>
            if compareHands rank best > 0 then
              bestRank := some rank
              winners := [seat]
            else if compareHands rank best = 0 then
              winners := winners ++ [seat]
      let payouts := distributeOddChips pot.amount winners s.dealerSeat
      results := results ++ [(i, payouts)]
      i := i + 1
  pure (pots, results, seatRanks)

def addToStack (players : List PlayerState) (seat : Nat) (amount : ℚ) :
    List PlayerState :=
  let p := players.getD seat default
  players.set seat { p with stack := p.stack + amount }

/-- `awardPots` from `engine.ts`: pays every payout entry and records the
awards in iteration order. -/
def awardPots (s : GameState) :
    Except String
      (GameState × List Pot × List (Nat × ℚ × Nat) ×
        List (Nat × HandRank)) := do
  let (pots, results, seatRanks) ← resolveShowdown s
  let mut players := s.players
  let mut awards : List (Nat × ℚ × Nat) := []
  for result in results do
    for payout in result.2 do
      players := addToStack players payout.1 payout.2
      awards := awards ++ [(payout.1, payout.2, result.1)]
  pure ({ s with players := players, pots := pots }, pots, awards, seatRanks)

/-- `rankToText` from `engine.ts`. -/
def rankToText (rank : HandRank) : String :=
  if rank.category = 8 then "Straight Flush"
  else if rank.category = 7 then "Four of a Kind"
  else if rank.category = 6 then "Full House"
  else if rank.category = 5 then "Flush"
  else if rank.category = 4 then "Straight"
  else if rank.category = 3 then "Three of a Kind"
  else if rank.category = 2 then "Two Pair"
  else if rank.category = 1 then "One Pair"
  else "High Card"

/-- `collectUncontested` from `engine.ts`. -/
def collectUncontested (s : GameState) :
    Option (GameState × Nat × ℚ) :=
  let remaining := s.players.filter fun p =>
    p.status ≠ .folded ∧ p.status ≠ .out
  if remaining.length = 1 then
    let winner := remaining.headD default
    let potTotal := s.players.foldl (fun sum p => sum + p.totalCommitted) 0
    some
      ({ s with
          players := addToStack s.players winner.seat potTotal
          pots := [⟨potTotal, [winner.seat]⟩] },
        winner.seat, potTotal)
  else none

/-- The hole-card dealing loop of `ensureHandSetup`: two passes over the
six seats starting at the small blind, dealing one card to each player
whose status is `active`. -/
def dealLoop (s : GameState) : Nat → Nat → Except String GameState
  | _, 0 => pure s
  | seat, Nat.succ n => do
      let p := getPlayerD s seat
      let s ← if p.status = .active then dealToSeat s seat 1 else pure s
      dealLoop s (nextSeat seat) n

/-- The shuffled deck used for a hand: a pure function of the string
`seed ++ ":" ++ toString handId` (FNV1a32 hash → xorshift32 stream →
Fisher–Yates shuffle). -/
def handDeck (seed : String) (handId : Nat) : List Card :=
  shuffleDeck createDeck (createRngState (seed ++ ":" ++ toString handId))

/-- The deterministic prefix of `ensureHandSetup` (`engine.ts:252-313`):
shuffle, per-player reset, linear seat advancement, street reset, blind
posting and the post-blind field fixups.  Returns the state together
with the posted small- and big-blind amounts. -/
def ensureHandSetupPredeal (s0 : GameState) (config : GameConfig) :
    GameState × ℚ × ℚ :=
  let s := { s0 with
    deck := handDeck config.seed s0.handId
    board := []
    burn := [] }
  let s : GameState := { s with
    players := s.players.map fun p =>
      { p with
        holeCards := []
        totalCommitted := 0
        streetCommitted := 0
        status := if p.stack = 0 then PlayerStatus.out else .active } }
  let dealerSeat := (s.dealerSeat + 1) % 6
  let smallBlindSeat := nextSeat dealerSeat
  let bigBlindSeat := nextSeat smallBlindSeat
  let s := { s with
    dealerSeat := dealerSeat
    smallBlindSeat := smallBlindSeat
    bigBlindSeat := bigBlindSeat
    phase := .preflop }
  let s := resetStreet s config
  let (s, sbPosted) := postBlind s smallBlindSeat config.smallBlind
  let (s, bbPosted) := postBlind s bigBlindSeat config.bigBlind
  let s := { s with
    currentBet := bbPosted
    lastRaiseSize := config.bigBlind
    minRaiseTo := bbPosted + config.bigBlind
    canRaise := s.players.map fun p => p.status = .active ∧ p.stack > 0
    betThisRound := s.players.map (·.streetCommitted)
    hasActedThisRound := s.players.map fun p =>
      p.status = .all_in ∨ p.status = .out }
  (s, sbPosted, bbPosted)

/-- `ensureHandSetup` from `engine.ts`; returns the events it appends. -/
def ensureHandSetup (s0 : GameState) (config : GameConfig) :
    Except String (GameState × List Event) := do
  let (s, sbPosted, bbPosted) := ensureHandSetupPredeal s0 config
  let ev1 : Event :=
    ⟨.hand_started, s.handId,
      .handStarted s.dealerSeat s.smallBlindSeat s.bigBlindSeat⟩
  let ev2 : Event :=
    ⟨.blind_posted, s.handId, .blindPosted s.smallBlindSeat sbPosted⟩
  let ev3 : Event :=
    ⟨.blind_posted, s.handId, .blindPosted s.bigBlindSeat bbPosted⟩
  let s2 ← dealLoop s s.smallBlindSeat 12
  match firstActiveFrom s2 (nextSeat s.bigBlindSeat) with
  | none => throw "No active player to act."
  | some actionSeat =>
      pure ({ s2 with actionSeat := actionSeat }, [ev1, ev2, ev3])

/-- `isBettingRoundComplete` from `engine.ts`. -/
def isBettingRoundComplete (s : GameState) : Bool :=
  let stillInHand := s.players.filter fun p =>
    p.status ≠ .folded ∧ p.status ≠ .out
  stillInHand.all fun p =>
    if p.status = .all_in then s.hasActedThisRound.getD p.seat false
    else
      s.betThisRound.getD p.seat 0 = s.currentBet ∧
        s.hasActedThisRound.getD p.seat false

/-- `advancePhase` from `engine.ts`; returns appended events. -/
def advancePhase (s0 : GameState) (config : GameConfig) :
    Except String (GameState × List Event) := do
  let s ←
    if s0.phase = .preflop then do
      let s ← dealBoard s0 3
      pure { s with phase := .flop }
    else if s0.phase = .flop then do
      let s ← dealBoard s0 1
      pure { s with phase := .turn }
    else if s0.phase = .turn then do
      let s ← dealBoard s0 1
      pure { s with phase := .river }
    else if s0.phase = .river then
      pure { s0 with phase := .showdown }
    else pure s0
  if s.phase = .showdown then
    pure (s, [])
  else
    let ev : Event := ⟨.street_dealt, s.handId, .streetDealt s.phase s.board⟩
    let s := resetStreet s config
    match firstActiveFrom s s.smallBlindSeat with
    | none => throw "No active player to act."
    | some actionSeat => pure ({ s with actionSeat := actionSeat }, [ev])

/-- `resolveHandEnd` from `engine.ts`; returns appended events. -/
def resolveHandEnd (s0 : GameState) :
    Except String (GameState × List Event) := do
  let (s, evs) ←
    match collectUncontested s0 with
    | some (s, winner, amount) =>
        pure (s,
          [(⟨.pot_awarded, s.handId,
              .potAwardedUncontested winner amount⟩ : Event)])
    | none => do
        let (s, pots, awards, seatRanks) ← awardPots s0
        let awardEvents : List Event := awards.map fun a =>
          ⟨.pot_awarded, s.handId, .potAwarded a.1 a.2.1 a.2.2⟩
        let showdownSeats := seatRanks.map (·.1)
        let seatSummaries := showdownSeats.map fun seat =>
          (seat, rankToText ((lookupSeatRank seatRanks seat).getD ⟨0, []⟩))
        let potWinners :=
          (pots.enum.map fun pz =>
            (pz.1, pz.2.amount, pz.2.eligibleSeats,
              (awards.filter fun a => a.2.2 = pz.1).map fun a =>
                (a.1, a.2.1)))
        let evSummary : Event :=
          ⟨.hand_summary, s.handId, .handSummary seatSummaries potWinners⟩
        pure (s, awardEvents ++ [evSummary])
  let s := { s with phase := .ended }
  pure (s, evs ++ [⟨.hand_ended, s.handId, .handEnded⟩])

/-- `advanceAfterAction` from `engine.ts`; returns appended events. -/
def advanceAfterAction (s : GameState) (config : GameConfig) :
    Except String (GameState × List Event) := do
  let remaining := countEligiblePlayers s.players
  if remaining ≤ 1 then
    resolveHandEnd s
  else if s.phase = .showdown then
    resolveHandEnd s
  else if isBettingRoundComplete s then do
    let (s, evs) ← advancePhase s config
    if s.phase = .showdown then do
      let (s, evs2) ← resolveHandEnd s
      pure (s, evs ++ evs2)
    else
      pure (s, evs)
  else
    match firstActiveFrom s (nextSeat s.actionSeat) with
    | none => resolveHandEnd s
    | some nextAction => pure ({ s with actionSeat := nextAction }, [])

/-- `getPlayerToAct` from `engine.ts`. -/
def getPlayerToAct (s : GameState) : Except String PlayerState :=
  let player := getPlayerD s s.actionSeat
  if player.status ≠ .active then throw "Action seat is not active."
  else pure player

/-- `markActedAfterAggression` from `engine.ts`. -/
def markActedAfterAggression (s : GameState) (actorSeat : Nat) :
    GameState :=
  { s with
    hasActedThisRound := s.players.map fun p =>
      if p.seat = actorSeat then true
      else if p.status = .active then false
      else true }

/-- `legalActionsForPlayer` from `engine.ts`. -/
def legalActionsForPlayer (s : GameState) (config : GameConfig) :
    Except String (List LegalAction) := do
  let player ← getPlayerToAct s
  let toCall := max 0 (s.currentBet - s.betThisRound.getD player.seat 0)
  let maxTotal := s.betThisRound.getD player.seat 0 + player.stack
  if toCall > 0 then
    let base : List LegalAction :=
      [⟨.fold, none, none⟩, ⟨.call, none, none⟩]
    if maxTotal > s.currentBet ∧ s.canRaise.getD player.seat false then
      pure (base ++
        [⟨.raise, some (min s.minRaiseTo maxTotal), some maxTotal⟩])
    else
      pure base
  else
    let base : List LegalAction := [⟨.check, none, none⟩]
    if player.stack > 0 then
      pure (base ++
        [⟨.bet, some (min config.bigBlind maxTotal), some maxTotal⟩])
    else
      pure base

/-- `applyPlayerAction` from `engine.ts`, preserving the mutation order
of each branch. -/
def applyPlayerAction (s : GameState) (config : GameConfig)
    (action : Action) : Except String GameState := do
  let player ← getPlayerToAct s
  if action.actor ≠ player.seat then
    throw "Action actor does not match action seat."
  let toCall := max 0 (s.currentBet - s.betThisRound.getD player.seat 0)
  let maxTotal := s.betThisRound.getD player.seat 0 + player.stack
  match action.type with
  | .fold => do
      if toCall = 0 then
        throw "Cannot fold when checking is available."
      pure { s with
        players := s.players.set player.seat
          { player with status := .folded }
        canRaise := s.canRaise.set player.seat false
        hasActedThisRound := s.hasActedThisRound.set player.seat true }
  | .check => do
      if toCall ≠ 0 then
        throw "Cannot check when facing a bet."
      pure { s with
        canRaise := s.canRaise.set player.seat false
        hasActedThisRound := s.hasActedThisRound.set player.seat true }
  | .call => do
      let callAmount := min player.stack toCall
      let p1 := { player with
        stack := player.stack - callAmount
        totalCommitted := player.totalCommitted + callAmount
        streetCommitted := player.streetCommitted + callAmount }
      let p2 := if p1.stack = (0 : ℚ) then { p1 with status := .all_in } else p1
      pure { s with
        players := s.players.set player.seat p2
        betThisRound := s.betThisRound.set player.seat
          (s.betThisRound.getD player.seat 0 + callAmount)
        canRaise := s.canRaise.set player.seat false
        hasActedThisRound := s.hasActedThisRound.set player.seat true }
  | .bet => do
      if toCall ≠ 0 then
        throw "Cannot bet when facing a bet."
      match action.amount with
      | none => throw "Bet requires amount."
      | some betTo => do
          if betTo ≤ 0 ∨ betTo > maxTotal then
            throw "Bet amount out of range."
          let minBet := config.bigBlind
          if betTo < minBet ∧ betTo ≠ maxTotal then
            throw "Bet below minimum and not all-in."
          let betAmount := betTo - s.betThisRound.getD player.seat 0
          let p1 := { player with
            stack := player.stack - betAmount
            totalCommitted := player.totalCommitted + betAmount
            streetCommitted := player.streetCommitted + betAmount }
          let s := { s with
            players := s.players.set player.seat p1
            betThisRound := s.betThisRound.set player.seat betTo }
          let s := { s with currentBet := betTo }
          let raiseSize : ℚ := s.currentBet - 0
          let s := { s with
            lastRaiseSize := raiseSize
            minRaiseTo := s.currentBet + raiseSize }
          let s :=
            if p1.stack = (0 : ℚ) then
              { s with players :=
                  s.players.set player.seat { p1 with status := .all_in } }
            else s
          let s := { s with
            canRaise := s.players.map fun p =>
              p.status = .active ∧ p.stack > 0 }
          pure (markActedAfterAggression s player.seat)
  | .raise => do
      if toCall ≤ 0 then
        throw "Cannot raise without a bet to call."
      match action.amount with
      | none => throw "Raise requires amount."
      | some raiseTo => do
          if raiseTo ≤ s.currentBet ∨ raiseTo > maxTotal then
            throw "Raise amount out of range."
          let minRaiseTo := s.minRaiseTo
          let isAllIn := raiseTo = maxTotal
          if raiseTo < minRaiseTo ∧ ¬isAllIn then
            throw "Raise below minimum and not all-in."
          let raiseAmount := raiseTo - s.betThisRound.getD player.seat 0
          let p1 := { player with
            stack := player.stack - raiseAmount
            totalCommitted := player.totalCommitted + raiseAmount
            streetCommitted := player.streetCommitted + raiseAmount }
          let s := { s with
            players := s.players.set player.seat p1
            betThisRound := s.betThisRound.set player.seat raiseTo }
          let s :=
            if raiseTo ≥ minRaiseTo then
              let raiseSize := raiseTo - s.currentBet
              { s with
                lastRaiseSize := raiseSize
                minRaiseTo := raiseTo + raiseSize
                canRaise := s.players.map fun p =>
                  p.status = .active ∧ p.stack > 0 }
            else s
          let s := { s with currentBet := max s.currentBet raiseTo }
          let s :=
            if p1.stack = (0 : ℚ) then
              { s with players :=
                  s.players.set player.seat { p1 with status := .all_in } }
            else s
          let s :=
            if raiseTo < minRaiseTo ∨ p1.stack = (0 : ℚ) then
              { s with canRaise := s.canRaise.set player.seat false }
            else s
          pure (markActedAfterAggression s player.seat)

/-- The closure state of `createEngine`. -/
structure Engine where
  config : GameConfig
  state : GameState
  events : List Event
  actionHistory : List Action
deriving DecidableEq, Repr

/-- `createEngine` from `engine.ts`. -/
def createEngine (config : GameConfig) : Except String Engine := do
  let s0 ← createInitialState config
  let (s1, evs) ← ensureHandSetup s0 config
  pure { config := config, state := s1, events := evs, actionHistory := [] }

structure EngineSnapshot where
  config : GameConfig
  state : GameState
  events : List Event
  actionHistory : List Action
deriving DecidableEq, Repr

/-- `getSnapshot` (value level; the reference/aliasing semantics of the
returned object is modeled separately in `SnapMod`). -/
def Engine.getSnapshot (e : Engine) : EngineSnapshot :=
  ⟨e.config, e.state, e.events, e.actionHistory⟩

/-- `getLegalActions` from `createEngine`. -/
def Engine.getLegalActions (e : Engine) :
    Except String (List LegalAction) :=
  if e.state.phase = .ended then pure []
  else legalActionsForPlayer e.state e.config

/-- `applyAction` from `createEngine`. -/
def Engine.applyAction (e : Engine) (action : Action) :
    Except String Engine := do
  if e.state.phase = .ended then
    throw "Hand is over."
  let s ← applyPlayerAction e.state e.config action
  let history := e.actionHistory ++ [action]
  let evAction : Event := ⟨.action_taken, s.handId, .actionTaken action⟩
  let (s, evs) ← advanceAfterAction s e.config
  pure { e with
    state := s
    events := e.events ++ [evAction] ++ evs
    actionHistory := history }

/-- `startNextHand` from `createEngine`. -/
def Engine.startNextHand (e : Engine) : Except String Engine := do
  if e.state.phase ≠ .ended then
    throw "Current hand is not finished."
  let s := { e.state with handId := e.state.handId + 1 }
  let (s, evs) ← ensureHandSetup s e.config
  pure { e with state := s, events := e.events ++ evs }

end Eng

namespace SnapMod

/-!
Reference semantics of `getSnapshot` (`engine.ts:663-668`).  The closure
of `createEngine` holds references to one mutable `GameState` object and
two mutable arrays (`events`, `actionHistory`).  `getSnapshot` returns
`{config, state, events: [...events], actionHistory: [...actionHistory]}`:
the two arrays are copied into freshly allocated array objects, while
`config` and `state` are passed as references to the live objects.  We
model the object store as a list of cells addressed by index; allocation
appends. -/

/-- A heap cell: one of the object kinds involved in `getSnapshot`. -/
inductive Obj where
  | gameState (s : Eng.GameState)
  | eventArr (es : List Eng.Event)
  | actionArr (as' : List Eng.Action)
deriving DecidableEq

/-- The object store: cells addressed by list index. -/
abbrev Heap := List Obj

/-- The references held by the `createEngine` closure. -/
structure EngineRefs where
  stateRef : Nat
  eventsRef : Nat
  historyRef : Nat
deriving DecidableEq

/-- The object returned by `getSnapshot`. -/
structure SnapshotRefs where
  config : Eng.GameConfig
  stateRef : Nat
  eventsRef : Nat
  historyRef : Nat
deriving DecidableEq

def readState (h : Heap) (r : Nat) : Option Eng.GameState :=
  match h.get? r with
  | some (.gameState s) => some s
  | _ => none

def readEvents (h : Heap) (r : Nat) : Option (List Eng.Event) :=
  match h.get? r with
  | some (.eventArr es) => some es
  | _ => none

def readHistory (h : Heap) (r : Nat) : Option (List Eng.Action) :=
  match h.get? r with
  | some (.actionArr as') => some as'
  | _ => none

/-- A caller mutating the `state` object it got (e.g. assigning one of
its fields) writes through the reference. -/
def writeState (h : Heap) (r : Nat) (s : Eng.GameState) : Heap :=
  h.set r (.gameState s)

/-- A caller mutating the array object it got (e.g. `push`). -/
def writeEvents (h : Heap) (r : Nat) (es : List Eng.Event) : Heap :=
  h.set r (.eventArr es)

/-- `getSnapshot` under reference semantics: `events` and
`actionHistory` are spread into fresh array objects (allocated at the end
of the store), while `state` is returned as the same reference the
closure holds. -/
def getSnapshotSem (h : Heap) (e : EngineRefs) (config : Eng.GameConfig) :
    Heap × SnapshotRefs :=
  let evCopy : Obj := .eventArr ((readEvents h e.eventsRef).getD [])
  let histCopy : Obj := .actionArr ((readHistory h e.historyRef).getD [])
  let h1 := h ++ [evCopy, histCopy]
  (h1,
    { config := config
      stateRef := e.stateRef
      eventsRef := h.length
      historyRef := h.length + 1 })

end SnapMod

namespace GW

/-- A parsed JSON value (result of `JSON.parse`).  JS objects whose
`typeof` is `"object"` are `obj`, `arr` or `null`. -/
inductive Json where
  | null
  | bool (b : Bool)
  | num (q : ℚ)
  | str (s : String)
  | arr (xs : List Json)
  | obj (fields : List (String × Json))

instance : Repr Json := ⟨fun _ _ => Std.Format.text "<json>"⟩


/-- `key in x` for the objects reaching the schema validator: true only
for a plain object owning the key (string keys are never own properties
of the arrays and primitives involved). -/
def hasKeyJ : Json → String → Bool
  | .obj fields, key => fields.any fun f => f.1 = key
  | _, _ => false

def lookupJ : Json → String → Option Json
  | .obj fields, key => (fields.find? fun f => f.1 = key).map (·.2)
  | _, _ => none

/-- Replace the value of an existing key, keeping its position (JS
property assignment). -/
def setKeyJ : Json → String → Json → Json
  | .obj fields, key, v =>
      .obj (fields.map fun f => if f.1 = key then (f.1, v) else f)
  | j, _, _ => j

/-- `delete obj[key]` on a plain object. -/
def removeKeyJ : Json → String → Json
  | .obj fields, key => .obj (fields.filter fun f => f.1 ≠ key)
  | j, _ => j

/-- JS truthiness of the JSON values involved (`x || dflt`). -/
def jsFalsy : Json → Bool
  | .null => true
  | .bool b => !b
  | .num q => q = 0
  | .str s => s = ""
  | _ => false

def jsOr (x dflt : Json) : Json := if jsFalsy x then dflt else x

/-- `String(x)` for the values reaching the keyword comparisons of the
schema validator.  Non-string values never stringify to an action or
plan keyword; their exact rendering is irrelevant to every use. -/
def jsString : Json → String
  | .str s => s
  | .null => "null"
  | .bool b => if b then "true" else "false"
  | .num _ => "#number"
  | .arr _ => "#array"
  | .obj _ => "[object Object]"

/-- `typeof x === "object" && x !== null` (objects and arrays). -/
def isObjectLike : Json → Bool
  | .obj _ => true
  | .arr _ => true
  | _ => false

/-- `Number.isFinite` on the embedded numbers.  Every rational is
finite: the IEEE values `NaN`/`±Infinity` have no rational embedding, so
this check never fails here. -/
def isFiniteNumber (_ : ℚ) : Bool := true

/-- `Action` (internal FOLD/CALL/RAISE encoding) from
`engine/decision.ts`. -/
inductive GActionType where
  | FOLD | CALL | RAISE
deriving DecidableEq, Repr

structure GAction where
  type : GActionType
  amount : Option ℚ
deriving DecidableEq, Repr

/-- `Driver` from `engine/decision.ts`; the key is a runtime string (the
lenient schema layer deliberately accepts any non-empty key). -/
structure Driver where
  key : String
  weight : ℚ
deriving DecidableEq, Repr

inductive Plan where
  | see_turn | control_pot | apply_pressure
deriving DecidableEq, Repr

structure Reason where
  drivers : List Driver
  plan : Plan
  assumptions : Option Json
  line : String
deriving Repr

structure Decision where
  action : GAction
  reason : Reason
  confidence : ℚ
deriving Repr

/-- The per-driver loop of the pipeline `validateDecision`
(`engine/decision.ts`): throws on non-finite or negative weights, only
warns (collecting the warning) on weights above 1, and accumulates the
sum and the running maximum (`maxWeight` starts at `-Infinity`, modeled
as `none`). -/
def driverLoopLenient :
    List Driver → ℚ → Option ℚ → List String →
      Except String (ℚ × Option ℚ × List String)
  | [], sum, mx, warns => pure (sum, mx, warns)
  | d :: rest, sum, mx, warns => do
      if ¬isFiniteNumber d.weight then
        throw ("Driver weight must be a finite number: " ++ d.key ++ ".")
      if d.weight < 0 then
        throw ("Driver weight must be non-negative: " ++ d.key ++ ".")
      let warns :=
        if d.weight > 1 then
          warns ++ ["Driver weight exceeds 1.0: " ++ d.key]
        else warns
      let mx := match mx with
        | none => some d.weight
        | some m => if d.weight > m then some d.weight else some m
      driverLoopLenient rest (sum + d.weight) mx warns

/-- `validateDecision` from `engine/decision.ts` — the validator invoked
by the live pipeline.  Returns the list of emitted `console.warn`
diagnostics on success; throws (`Except.error`) on the hard checks. -/
def validateDecision (decision : Decision) :
    Except String (List String) := do
  let drivers := decision.reason.drivers
  if drivers.length < 2 then
    throw "Decision must include at least 2 drivers."
  let (sum, maxWeight, warns) ← driverLoopLenient drivers 0 none []
  let warns :=
    if sum < 4/5 ∨ sum > 6/5 then
      warns ++ ["Driver weight sum outside expected range [0.8, 1.2]"]
    else warns
  if decision.confidence < 0 ∨ decision.confidence > 1 then
    throw "Confidence must be between 0 and 1."
  if decision.reason.line.trim = "" then
    throw "Reason line must be non-empty."
  let highestKeys :=
    (drivers.filter fun d => some d.weight = maxWeight).map (·.key)
  if decision.action.type = .RAISE ∧ highestKeys.contains "risk" then
    throw "RAISE cannot have risk as highest-weight driver."
  pure warns

/-- The per-driver loop of the standalone strict validator (the separate
`validateDecision` module kept for testing): weights outside `[0, 1]`
throw. -/
def driverLoopStrict :
    List Driver → ℚ → Option ℚ → Except String (ℚ × Option ℚ)
  | [], sum, mx => pure (sum, mx)
  | d :: rest, sum, mx => do
      if d.weight < 0 ∨ d.weight > 1 then
        throw ("Driver weight out of range: " ++ d.key ++ ".")
      let mx := match mx with
        | none => some d.weight
        | some m => if d.weight > m then some d.weight else some m
      driverLoopStrict rest (sum + d.weight) mx

/-- The standalone strict `validateDecision` (the test-only validator
module): every sanity check is authoritative and throws. -/
def validateDecisionStrict (decision : Decision) :
    Except String Unit := do
  let drivers := decision.reason.drivers
  if drivers.length < 2 then
    throw "Decision must include at least 2 drivers."
  let (sum, maxWeight) ← driverLoopStrict drivers 0 none
  if sum < 4/5 ∨ sum > 6/5 then
    throw "Sum of driver weights must be between 0.8 and 1.2."
  if decision.confidence < 0 ∨ decision.confidence > 1 then
    throw "Confidence must be between 0 and 1."
  if decision.reason.line.trim = "" then
    throw "Reason line must be non-empty."
  let highestKeys :=
    (drivers.filter fun d => some d.weight = maxWeight).map (·.key)
  if decision.action.type = .FOLD ∧ highestKeys.contains "hand_strength" then
    throw "FOLD cannot have hand_strength as highest-weight driver."
  if decision.action.type = .RAISE ∧ highestKeys.contains "risk" then
    throw "RAISE cannot have risk as highest-weight driver."
  pure ()

/-- `CAPABILITY_LEVEL` from `shared/capability.ts` (string constants). -/
def L1_BASIC : String := "L1_BASIC"

def L2_STANDARD : String := "L2_STANDARD"

def L3_EXPERIMENTAL : String := "L3_EXPERIMENTAL"

/-- `ACTION_MODE` from `shared/actionMode.ts`. -/
inductive ActionMode where
  | manual | ai_basic | ai_standard | ai_experimental
deriving DecidableEq, Repr

/-- `ACTION_MODE_ALLOWED_CAPABILITIES` from
`shared/actionModeCapabilityMapping.ts`. -/
def actionModeAllowedCapabilities : ActionMode → List String
  | .manual => []
  | .ai_basic => [L1_BASIC]
  | .ai_standard => [L1_BASIC, L2_STANDARD]
  | .ai_experimental => [L1_BASIC, L2_STANDARD, L3_EXPERIMENTAL]

/-- `isCapabilityAllowedForActionMode` from the same module. -/
def isCapabilityAllowedForActionMode (actionMode : ActionMode)
    (capability : String) : Bool :=
  (actionModeAllowedCapabilities actionMode).contains capability

/-- `ModelPreset` (`shared/modelPreset.ts`); display-only fields
(`displayName`, `uiFlags`) are omitted — nothing in the pipeline reads
them. -/
structure ModelPreset where
  id : String
  provider : String
  modelName : String
  capability : String
deriving DecidableEq, Repr

/-- `MODEL_PRESET_REGISTRY` from `modelPresetRegistry.ts`. -/
def MODEL_PRESET_REGISTRY : List ModelPreset :=
  [⟨"qwen-flash", "qwen", "qwen-turbo", L1_BASIC⟩,
   ⟨"qwen-plus", "qwen", "qwen-plus", L2_STANDARD⟩,
   ⟨"qwen-max", "qwen", "qwen-max", L3_EXPERIMENTAL⟩,
   ⟨"doubao-seed-1.6-lite", "doubao", "ep-20251226202334-45f5l", L1_BASIC⟩,
   ⟨"doubao-seed-1.8", "doubao", "ep-20251226202046-b6svb",
     L3_EXPERIMENTAL⟩,
   ⟨"deepseek-v3.2", "deepseek", "ep-20251226201345-bb46w", L2_STANDARD⟩,
   ⟨"gemini-flash", "gemini", "2.5-flash", L1_BASIC⟩,
   ⟨"gemini-pro", "gemini", "3-flash-preview", L2_STANDARD⟩]

/-- `getPresetById` from `modelPresetRegistry.ts`. -/
def getPresetById (id : String) : Option ModelPreset :=
  MODEL_PRESET_REGISTRY.find? fun preset => preset.id = id

/-- `SeatAiConfigValidationResult` from `seatAiConfigValidation.ts`;
`invalid` carries the structured reason code and the message. -/
inductive SeatAiConfigValidationResult where
  | ok
  | invalid (reason : String) (message : String)
deriving DecidableEq, Repr

/-- `validateSeatAiConfig` from `seatAiConfigValidation.ts`. -/
def validateSeatAiConfig (actionMode : ActionMode)
    (selectedPreset : Option ModelPreset) :
    SeatAiConfigValidationResult :=
  match actionMode, selectedPreset with
  | .manual, some _ =>
      .invalid "MANUAL_MODE_NO_PRESET_ALLOWED"
        "Manual mode does not allow ModelPreset selection. LLM invocation is forbidden."
  | .manual, none => .ok
  | mode, none =>
      .invalid "AI_MODE_PRESET_REQUIRED"
        ("ActionMode requires a ModelPreset to be selected." ++
          match mode with | _ => "")
  | mode, some preset =>
      if isCapabilityAllowedForActionMode mode preset.capability then .ok
      else
        .invalid "PRESET_CAPABILITY_NOT_ALLOWED"
          ("ModelPreset '" ++ preset.id ++ "' with capability '" ++
            preset.capability ++ "' is not allowed for this ActionMode.")

/-- `AiConfigResult` from `aiConfigFailure.ts`. -/
inductive AiConfigResult where
  | success
  | failure (reason : String) (message : String)
deriving DecidableEq, Repr

/-- The `failureMessages` table of `toAiConfigResult`. -/
def aiConfigFailureMessage (reason : String) : Option String :=
  if reason = "MANUAL_MODE_NO_PRESET_ALLOWED" then
    some "AI is disabled for this seat. Manual mode does not allow model selection."
  else if reason = "AI_MODE_PRESET_REQUIRED" then
    some "A model must be selected for AI mode. Please configure a model preset."
  else if reason = "PRESET_CAPABILITY_NOT_ALLOWED" then
    some "Selected model exceeds the authority allowed by this seat's AI mode."
  else none

/-- `toAiConfigResult` from `aiConfigFailure.ts`. -/
def toAiConfigResult :
    SeatAiConfigValidationResult → AiConfigResult
  | .ok => .success
  | .invalid reason message =>
      .failure reason ((aiConfigFailureMessage reason).getD message)

def isAiConfigFailure : AiConfigResult → Bool
  | .success => false
  | .failure _ _ => true

/-- `validateSeatAiConfigWithFailureSemantics` from
`seatAiConfigValidation.ts`. -/
def validateSeatAiConfigWithFailureSemantics (actionMode : ActionMode)
    (selectedPreset : Option ModelPreset) : AiConfigResult :=
  toAiConfigResult (validateSeatAiConfig actionMode selectedPreset)

structure ProviderCredential where
  provider : String
  apiKey : String
deriving DecidableEq, Repr

/-- `CredentialFailure` from `shared/credentialFailure.ts` (the fields
the pipeline reads). -/
structure CredentialFailure where
  reason : String
  message : String
  provider : Option String
  skipLlmInvocation : Bool
  allowManualFallback : Bool
  recoverable : Bool
deriving DecidableEq, Repr

inductive CredentialResult where
  | success
  | failure (f : CredentialFailure)
deriving DecidableEq, Repr

/-- `createNoKeyFailure` from `credentialFailure.ts`. -/
def createNoKeyFailure (provider : Option String) : CredentialFailure :=
  let providerText := match provider with
    | some p => " for " ++ p
    | none => ""
  { reason := "NO_KEY_PROVIDED"
    message := "No API key provided" ++ providerText ++
      ". Please configure your API key to use this provider."
    provider := provider
    skipLlmInvocation := true
    allowManualFallback := true
    recoverable := true }

/-- `createAuthErrorFailure` from `credentialFailure.ts` (called without
details by the pipeline). -/
def createAuthErrorFailure (provider : String) : CredentialFailure :=
  { reason := "AUTH_ERROR"
    message := "Authentication failed for " ++ provider ++
      ". Please check your API key."
    provider := some provider
    skipLlmInvocation := true
    allowManualFallback := true
    recoverable := true }

/-- `createRateLimitedFailure` from `credentialFailure.ts` (no
`retryAfter` in the pipeline's call). -/
def createRateLimitedFailure (provider : String) : CredentialFailure :=
  { reason := "RATE_LIMITED"
    message := "Rate limit exceeded for " ++ provider ++ "."
    provider := some provider
    skipLlmInvocation := true
    allowManualFallback := true
    recoverable := false }

/-- `createProviderErrorFailure` from `credentialFailure.ts`. -/
def createProviderErrorFailure (provider : String)
    (details : Option String) : CredentialFailure :=
  let detailsText := match details with
    | some d => ": " ++ d
    | none => ""
  { reason := "PROVIDER_ERROR"
    message := "Provider error for " ++ provider ++ detailsText ++
      ". Please try again later."
    provider := some provider
    skipLlmInvocation := true
    allowManualFallback := true
    recoverable := false }

/-- `mapProviderErrorToFailure` from `credentialFailure.ts`, as invoked
by the pipeline (no error body, so no extracted message). -/
def mapProviderErrorToFailure (provider : String) (statusCode : Nat) :
    CredentialFailure :=
  if statusCode = 401 ∨ statusCode = 403 then
    createAuthErrorFailure provider
  else if statusCode = 429 then
    createRateLimitedFailure provider
  else if statusCode = 500 ∨ statusCode = 502 ∨ statusCode = 503 ∨
      statusCode = 504 then
    createProviderErrorFailure provider none
  else
    createProviderErrorFailure provider
      (some ("HTTP " ++ toString statusCode))

def isCredentialFailure : CredentialResult → Bool
  | .success => false
  | .failure _ => true

/-- `RejectReason` from the gateway pipeline. -/
inductive RejectReason where
  | invalid_ai_config | missing_credential | provider_error
  | invalid_json | schema_mismatch | illegal_action | capability_limit
deriving DecidableEq, Repr

/-- `RejectMessageCode` from the gateway pipeline. -/
inductive RejectMessageCode where
  | AI_CONFIG_INVALID | CREDENTIAL_MISSING | PROVIDER_ERROR
  | INVALID_RESPONSE_FORMAT | RESPONSE_SCHEMA_MISMATCH
  | ACTION_NOT_LEGAL | CAPABILITY_RESTRICTED
deriving DecidableEq, Repr

/-- `getRejectMessageCode` from the gateway pipeline. -/
def getRejectMessageCode : RejectReason → RejectMessageCode
  | .invalid_ai_config => .AI_CONFIG_INVALID
  | .missing_credential => .CREDENTIAL_MISSING
  | .provider_error => .PROVIDER_ERROR
  | .invalid_json => .INVALID_RESPONSE_FORMAT
  | .schema_mismatch => .RESPONSE_SCHEMA_MISMATCH
  | .illegal_action => .ACTION_NOT_LEGAL
  | .capability_limit => .CAPABILITY_RESTRICTED

structure RejectedProposal where
  reason : RejectReason
  message : String
  messageCode : RejectMessageCode
  allowManualFallback : Bool
  fallback : Bool
deriving Repr

structure AcceptedProposal where
  decision : Decision
deriving Repr

inductive FallbackReason where
  | manual_mode | ai_disabled
deriving DecidableEq, Repr

structure FallbackProposal where
  reason : FallbackReason
  message : String
deriving DecidableEq, Repr

inductive ProposalResult where
  | accepted (p : AcceptedProposal)
  | rejected (p : RejectedProposal)
  | fallback (p : FallbackProposal)
deriving Repr

/-- The rejected-proposal literal the pipeline builds at every rejection
site: `allowManualFallback: true` and `fallback: true` are fixed. -/
def mkRejected (reason : RejectReason) (message : String) :
    RejectedProposal :=
  { reason := reason
    message := message
    messageCode := getRejectMessageCode reason
    allowManualFallback := true
    fallback := true }

instance : Inhabited Eng.LegalAction := ⟨⟨.fold, none, none⟩⟩

/-- Result type of `enforceSemanticGate`. -/
structure GateResult where
  valid : Bool
  message : Option String
  reason : Option RejectReason
deriving Repr

/-- `enforceSemanticGate` from the gateway pipeline: authority check
(capability bucket) first, then game-legality check against
`legalActions`. -/
def enforceSemanticGate (proposedAction : GAction)
    (legalActions : List Eng.LegalAction) (capability : String) :
    GateResult :=
  let intent := proposedAction.type
  if capability = L1_BASIC ∧ intent = .RAISE then
    { valid := false
      reason := some .capability_limit
      message := some "L1_BASIC capability does not allow RAISE actions. Only FOLD or CALL are permitted." }
  else
    match intent with
    | .FOLD =>
        match legalActions.find? fun a => a.type = .fold with
        | none =>
            { valid := false
              reason := some .illegal_action
              message := some "FOLD is not a legal action in the current game state." }
        | some _ => { valid := true, message := none, reason := none }
    | .CALL =>
        let legalCheck := legalActions.find? fun a => a.type = .check
        let legalCall := legalActions.find? fun a => a.type = .call
        if legalCheck = none ∧ legalCall = none then
          { valid := false
            reason := some .illegal_action
            message := some "CALL/CHECK is not a legal action in the current game state." }
        else { valid := true, message := none, reason := none }
    | .RAISE =>
        let legalBet := legalActions.find? fun a => a.type = .bet
        let legalRaise := legalActions.find? fun a => a.type = .raise
        match legalBet, legalRaise with
        | none, none =>
            { valid := false
              reason := some .illegal_action
              message := some "RAISE/BET is not a legal action in the current game state." }
        | _, _ =>
            match proposedAction.amount with
            | none =>
                { valid := false
                  reason := some .illegal_action
                  message := some "RAISE action requires an amount." }
            | some amount =>
                let legal := (match legalBet with
                  | some b => some b
                  | none => legalRaise).getD default
                if legal.minAmount.any fun m => amount < m then
                  { valid := false
                    reason := some .illegal_action
                    message := some "RAISE amount is below minimum." }
                else if legal.maxAmount.any fun m => amount > m then
                  { valid := false
                    reason := some .illegal_action
                    message := some "RAISE amount exceeds maximum." }
                else { valid := true, message := none, reason := none }

/-- `DecisionInput` (the fields the pipeline reads;
`input.state?.legal_actions` is flattened into one optional field). -/
structure DecisionInput where
  engine_facts : Option Json
  profile : Option Json
  instruction : Option String
  legal_actions : Option (List Eng.LegalAction)

structure ProposeDecisionParams where
  input : DecisionInput
  actionMode : ActionMode
  presetId : String
  credential : Option ProviderCredential

/-- `getAdapterForProvider` from `adapterRegistry.ts`: exactly the four
registered providers have adapters. -/
def getAdapterForProvider (provider : String) : Bool :=
  provider = "qwen" ∨ provider = "doubao" ∨ provider = "deepseek" ∨
    provider = "gemini"

/-- `\w` of the fallback regex in `extractStatusCode`. -/
def isWordChar (c : Char) : Bool :=
  c.isAlphanum ∨ c = '_'

def digitsToNat (c1 c2 c3 : Char) : Nat :=
  (c1.toNat - 48) * 100 + (c2.toNat - 48) * 10 + (c3.toNat - 48)

/-- Scan for `/HTTP error:\s*(\d{3})/`: the first occurrence of
`HTTP error:` followed (after a whitespace run) by three digits. -/
def scanHttpError : List Char → Option Nat
  | [] => none
  | c :: rest =>
      let l := c :: rest
      if "HTTP error:".data.isPrefixOf l then
        let after := (l.drop 11).dropWhile Char.isWhitespace
        match after with
        | d1 :: d2 :: d3 :: _ =>
            if d1.isDigit ∧ d2.isDigit ∧ d3.isDigit then
              some (digitsToNat d1 d2 d3)
            else scanHttpError rest
        | _ => scanHttpError rest
      else scanHttpError rest

/-- Scan for `/\b([45]\d{2})\b/`: a three-digit run starting with 4 or 5
delimited by non-word characters. -/
def scanStatusFallback : Option Char → List Char → Option Nat
  | prev, c1 :: c2 :: c3 :: rest =>
      if ((c1 == '4' || c1 == '5') && c2.isDigit && c3.isDigit &&
          (match prev with | none => true | some p => !isWordChar p) &&
          (match rest with | [] => true | n :: _ => !isWordChar n)) then
        some (digitsToNat c1 c2 c3)
      else scanStatusFallback (some c1) (c2 :: c3 :: rest)
  | _, _ => none

/-- `extractStatusCode` from the gateway pipeline. -/
def extractStatusCode (errorMessage : String) : Nat :=
  match scanHttpError errorMessage.data with
  | some code => code
  | none =>
      match scanStatusFallback none errorMessage.data with
      | some code => code
      | none => 500

/-- `message.includes(needle)`. -/
def listContainsSub : List Char → List Char → Bool
  | _, [] => true
  | [], _ => false
  | c :: rest, needle =>
      needle.isPrefixOf (c :: rest) || listContainsSub rest needle

def containsSub (hay needle : String) : Bool :=
  listContainsSub hay.data needle.data

/-- Suffix after the first `}` character, when one exists. -/
def afterFirstCloseBrace : List Char → Option (List Char)
  | [] => none
  | c :: rest => if c = '\x7d' then some rest else afterFirstCloseBrace rest

/-- `parseRawTextAsJson` from the gateway pipeline.  `parseJson` stands
for `JSON.parse` (`none` models a thrown `SyntaxError`); the surrounding
checks are translated exactly. -/
def parseRawTextAsJson (parseJson : String → Option Json)
    (rawText : String) : Except RejectedProposal Json := do
  let trimmed := rawText.trim
  if ¬(trimmed.startsWith "\x7b" ∧ trimmed.endsWith "\x7d") then
    throw (mkRejected .invalid_json
      "LLM response is not JSON format. Response must start and end with braces.")
  match afterFirstCloseBrace trimmed.data with
  | some suffix =>
      let afterFirstObject := (String.mk suffix).trim
      if afterFirstObject.length > 0 ∧ afterFirstObject.startsWith "\x7b" then
        throw (mkRejected .invalid_json
          "LLM response contains multiple JSON objects. Only a single JSON object is allowed.")
  | none => pure ()
  match parseJson trimmed with
  | none =>
      throw (mkRejected .invalid_json "JSON parse failure.")
  | some parsed =>
      match parsed with
      | .obj _ => pure parsed
      | _ =>
          throw (mkRejected .invalid_json
            "Parsed JSON is not an object. Expected a JSON object, not an array or primitive.")

/-- `normalizeDecisionSchema` from the gateway pipeline (the JS in-place
mutations become a returned value). -/
def normalizeDecisionSchema (parsedJson : Json) : Json :=
  match parsedJson with
  | .obj _ =>
      if ¬hasKeyJ parsedJson "action" then parsedJson
      else
        let action0 := (lookupJ parsedJson "action").getD .null
        match action0 with
        | .str s =>
            let actionStr := s.toUpper
            if actionStr = "FOLD" ∨ actionStr = "CALL" ∨
                actionStr = "RAISE" then
              normalizeAmount
                (setKeyJ parsedJson "action" (.obj [("type", .str actionStr)]))
            else parsedJson
        | _ => normalizeAmount parsedJson
  | _ => parsedJson
where
  /-- The second half: for FOLD/CALL actions delete an `amount: null`. -/
  normalizeAmount (j : Json) : Json :=
    let action := (lookupJ j "action").getD .null
    match action with
    | .obj _ =>
        if ¬hasKeyJ action "type" then j
        else
          let actionType := (jsString (jsOr ((lookupJ action "type").getD .null)
            (.str ""))).toUpper
          if actionType = "FOLD" ∨ actionType = "CALL" then
            if hasKeyJ action "amount" then
              match lookupJ action "amount" with
              | some .null => setKeyJ j "action" (removeKeyJ action "amount")
              | _ => j
            else j
          else j
    | _ => j

/-- Element check of the `drivers` validation loop in
`validateDecisionSchema`. -/
def validDriverJson (driver : Json) : Option Driver :=
  if isObjectLike driver ∧ hasKeyJ driver "key" ∧ hasKeyJ driver "weight"
  then
    match lookupJ driver "key", lookupJ driver "weight" with
    | some (.str key), some (.num weight) =>
        if key.trim.length = 0 then none
        else if ¬isFiniteNumber weight then none
        else some ⟨key, weight⟩
    | _, _ => none
  else none

def extractDrivers : List Json → Option (List Driver)
  | [] => some []
  | d :: rest => do
      let driver ← validDriverJson d
      let drivers ← extractDrivers rest
      pure (driver :: drivers)

def parsePlan (planRaw : String) : Plan :=
  if planRaw = "see_turn" then .see_turn
  else if planRaw = "control_pot" then .control_pot
  else if planRaw = "apply_pressure" then .apply_pressure
  else .see_turn

def stringOfKey (j : Json) (key : String) : String :=
  if hasKeyJ j key then jsString (jsOr ((lookupJ j key).getD .null) (.str ""))
  else ""

/-- `validateDecisionSchema` from the gateway pipeline; every rejection
is a `schema_mismatch`, so only the message is carried. -/
def validateDecisionSchema (parsedJson : Json) :
    Except String Decision := do
  let _ ← match parsedJson with
    | .obj _ => pure ()
    | _ => throw "Decision must be a JSON object."
  if ¬hasKeyJ parsedJson "action" then
    throw "Decision schema mismatch: missing required field action."
  let action := (lookupJ parsedJson "action").getD .null
  if ¬isObjectLike action then
    throw "Decision schema mismatch: action must be an object."
  if ¬hasKeyJ action "type" then
    throw "Decision schema mismatch: missing required field action.type."
  let actionTypeStr :=
    (jsString (jsOr ((lookupJ action "type").getD .null) (.str ""))).toUpper
  let actionType : GActionType ←
    if actionTypeStr = "FOLD" then pure .FOLD
    else if actionTypeStr = "CALL" then pure .CALL
    else if actionTypeStr = "RAISE" then pure .RAISE
    else throw ("Invalid action type: " ++ actionTypeStr ++
      ". Must be FOLD, CALL, or RAISE.")
  let actionAmount : Option ℚ ←
    if hasKeyJ action "amount" then
      match lookupJ action "amount" with
      | some .null =>
          if actionType = .RAISE then
            throw "Decision schema mismatch: action.amount is required for RAISE actions."
          else pure none
      | some (.num q) =>
          if ¬isFiniteNumber q then
            throw "Decision schema mismatch: action.amount must be a finite number."
          else pure (some q)
      | _ =>
          throw "Decision schema mismatch: action.amount must be a number or null."
    else
      if actionType = .RAISE then
        throw "Decision schema mismatch: action.amount is required for RAISE actions."
      else pure none
  let reason : Option Reason ←
    if hasKeyJ parsedJson "reason" then do
      let reasonObj := (lookupJ parsedJson "reason").getD .null
      if ¬isObjectLike reasonObj then
        throw "Decision schema mismatch: reason must be an object if provided."
      let drivers : List Driver ←
        if hasKeyJ reasonObj "drivers" then
          match lookupJ reasonObj "drivers" with
          | some (.arr ds) =>
              match extractDrivers ds with
              | some drivers => pure drivers
              | none =>
                  throw "Decision schema mismatch: a reason.drivers entry must have key (non-empty string) and weight (finite number)."
          | _ =>
              throw "Decision schema mismatch: reason.drivers must be an array if provided."
        else pure []
      let plan := parsePlan (stringOfKey reasonObj "plan")
      let assumptions : Option Json :=
        match lookupJ reasonObj "assumptions" with
        | some (.obj fields) => some (.obj fields)
        | _ => none
      let line := stringOfKey reasonObj "line"
      pure (some ⟨drivers, plan, assumptions, line⟩)
    else pure none
  let confidence : Option ℚ ←
    if hasKeyJ parsedJson "confidence" then
      match lookupJ parsedJson "confidence" with
      | some (.num q) =>
          if ¬isFiniteNumber q then
            throw "Decision schema mismatch: confidence must be a finite number if provided."
          else pure (some q)
      | _ =>
          throw "Decision schema mismatch: confidence must be a finite number if provided."
    else pure none
  let finalReason : Reason := reason.getD ⟨[], .see_turn, none, ""⟩
  pure
    { action := ⟨actionType, actionAmount⟩
      reason := finalReason
      confidence := confidence.getD (1/2) }

/-- The pipeline's environment: `JSON.parse`, the canonical prompt
builder and the provider adapter transport (`Except.error` models a
thrown transport exception with its message). -/
structure PipelineEnv where
  parseJson : String → Option Json
  buildPrompt : DecisionInput → String
  adapterInvoke : String → String → String → String → Except String String

/-- `proposeDecision` from the gateway pipeline — the single
authoritative decision entrypoint, step by step:
preset resolution, manual-mode fallback, seat-AI-config validation,
credential resolution, adapter invocation (transport faults caught and
remapped in place), JSON parsing, schema validation, the pipeline
`validateDecision` (thrown sanity failures remapped to
`schema_mismatch`), and the semantic gate. -/
def proposeDecision (env : PipelineEnv) (params : ProposeDecisionParams) :
    ProposalResult :=
  match getPresetById params.presetId with
  | none =>
      .rejected (mkRejected .invalid_ai_config
        ("Model preset '" ++ params.presetId ++ "' not found."))
  | some preset =>
    if params.actionMode = .manual then
      .fallback ⟨.manual_mode,
        "Manual mode is enabled. LLM invocation is not permitted."⟩
    else
      match validateSeatAiConfigWithFailureSemantics params.actionMode
          (some preset) with
      | .failure _ message =>
          .rejected (mkRejected .invalid_ai_config message)
      | .success =>
        let credentialResult : CredentialResult :=
          match params.credential with
          | none => .failure (createNoKeyFailure (some preset.provider))
          | some credential =>
              if credential.provider ≠ preset.provider then
                .failure (createNoKeyFailure (some preset.provider))
              else if credential.apiKey.trim = "" then
                .failure (createNoKeyFailure (some preset.provider))
              else .success
        match credentialResult with
        | .failure f =>
            .rejected (mkRejected .missing_credential f.message)
        | .success =>
          let fullPrompt := env.buildPrompt params.input
          if ¬getAdapterForProvider preset.provider then
            .rejected (mkRejected .provider_error
              ("No adapter available for provider: " ++ preset.provider))
          else
            let apiKey := (params.credential.map (·.apiKey)).getD ""
            match env.adapterInvoke preset.provider preset.modelName
                fullPrompt apiKey with
            | .error errorMessage =>
                if containsSub errorMessage "HTTP error:" then
                  let statusCode := extractStatusCode errorMessage
                  if statusCode = 401 ∨ statusCode = 403 ∨
                      statusCode = 429 then
                    .rejected (mkRejected .missing_credential
                      (mapProviderErrorToFailure preset.provider
                        statusCode).message)
                  else if statusCode ≥ 500 then
                    .rejected (mkRejected .provider_error
                      (mapProviderErrorToFailure preset.provider
                        statusCode).message)
                  else
                    .rejected (mkRejected .provider_error
                      ("Provider request failed for " ++ preset.provider ++
                        ": " ++ errorMessage))
                else
                  .rejected (mkRejected .provider_error
                    ("Provider request failed for " ++ preset.provider ++
                      ": " ++ errorMessage))
            | .ok rawText =>
              match parseRawTextAsJson env.parseJson rawText with
              | .error rejection => .rejected rejection
              | .ok parsedJson =>
                let normalizedJson := normalizeDecisionSchema parsedJson
                match validateDecisionSchema normalizedJson with
                | .error message =>
                    .rejected (mkRejected .schema_mismatch message)
                | .ok typedDecision =>
                  match validateDecision typedDecision with
                  | .error errMessage =>
                      .rejected (mkRejected .schema_mismatch
                        ("Decision validation failed: " ++ errMessage))
                  | .ok _warnings =>
                    let semanticGateResult := enforceSemanticGate
                      typedDecision.action
                      (params.input.legal_actions.getD [])
                      preset.capability
                    if semanticGateResult.valid then
                      .accepted ⟨typedDecision⟩
                    else
                      let gateReason :=
                        semanticGateResult.reason.getD .illegal_action
                      .rejected (mkRejected gateReason
                        ((semanticGateResult.message).getD
                          "Proposed action is not legal in current game state."))

end GW

namespace Eng

/-- Membership of an action in a legal-action list, with the actor equal
to the current action seat and any amount within the advertised
`[minAmount, maxAmount]` bounds — the notion of "legal action" used by
the specification's legal-action soundness property. -/
def actionWithinLegal (las : List LegalAction) (st : GameState)
    (a : Action) : Bool :=
  (a.actor == st.actionSeat) &&
  las.any fun la =>
    la.type == a.type &&
    (match la.minAmount, a.amount with
     | some lo, some x => decide (lo ≤ x)
     | some _, none => false
     | none, _ => true) &&
    (match la.maxAmount, a.amount with
     | some hi, some x => decide (x ≤ hi)
     | some _, none => false
     | none, _ => true)

/-- Run a list of actions, requiring every step to be inside
`getLegalActions` (per `actionWithinLegal`) and to apply successfully. -/
def runLegal (e : Engine) : List Action → Option Engine
  | [] => some e
  | a :: rest =>
      match e.getLegalActions with
      | .error _ => none
      | .ok las =>
          if actionWithinLegal las e.state a then
            match e.applyAction a with
            | .ok e2 => runLegal e2 rest
            | .error _ => none
          else none

def errOf {α : Type} : Except String α → Option String
  | .error m => some m
  | .ok _ => none

def sumStacks (s : GameState) : ℚ := (s.players.map (·.stack)).sum

/-- C1 failing input: every player starts with 100 chips; seat 4 raises
all-in and everyone calls all-in. -/
def c1Config : GameConfig := ⟨"s", [100, 100, 100, 100, 100, 100], 1, 2⟩

def c1Prefix : List Action :=
  [⟨4, .raise, some 100⟩, ⟨5, .call, none⟩, ⟨0, .call, none⟩,
   ⟨1, .call, none⟩, ⟨2, .call, none⟩]

def c1FinalCall : Action := ⟨3, .call, none⟩

/-- C2 failing input: smallBlind (100) exceeds bigBlind (10).  Seat 1
calls 30 and then folds facing 100; the two survivors "bet" back down to
10 (legal bets below their own current street commitment, refunding
chips), so the folded seat's extra 20 chips sit at a commitment level
whose eligible-seat set is empty at showdown. -/
def c2Config : GameConfig :=
  ⟨"s", [1000, 1000, 1000, 1000, 1000, 1000], 100, 10⟩

def c2Actions : List Action :=
  [⟨4, .raise, some 30⟩, ⟨5, .fold, none⟩, ⟨0, .fold, none⟩,
   ⟨1, .call, none⟩, ⟨2, .check, none⟩, ⟨3, .fold, none⟩,
   ⟨4, .bet, some 100⟩, ⟨1, .fold, none⟩, ⟨2, .bet, some 10⟩,
   ⟨4, .bet, some 10⟩, ⟨2, .check, none⟩,
   ⟨2, .check, none⟩, ⟨4, .check, none⟩,
   ⟨2, .check, none⟩, ⟨4, .check, none⟩,
   ⟨2, .check, none⟩, ⟨4, .check, none⟩]

end Eng

open Eng in
/-- C1.  Legal-action soundness fails on the code: from `c1Config`,
applying the five legal actions of `c1Prefix` succeeds and reaches a
preflop state (phase not `ended`) whose `getLegalActions` contains the
call `c1FinalCall` for the correct actor, yet `applyAction` on that
legal call throws "No active player to act." (the street-advance step
finds no active player once all six are all-in).  The specification says
every action returned by `getLegalActions` is accepted without
throwing. -/
theorem C1_legal_call_throws_all_all_in :
    ((createEngine c1Config).toOption.bind
        (fun e0 => runLegal e0 c1Prefix)).map
      (fun e =>
        (e.state.phase,
         e.getLegalActions.map
           (fun las => actionWithinLegal las e.state c1FinalCall),
         errOf (e.applyAction c1FinalCall))) =
      some (.preflop, .ok true, some "No active player to act.") := by
  with_unfolding_all rfl

open Eng in
/-- C2.  Chip conservation fails on the code: the seventeen actions of
`c2Actions` are all legal (each inside `getLegalActions` with in-bounds
amounts), the hand ends with pots awarded, yet the six stacks sum to
5980 while the starting stacks sum to 6000 — 20 chips vanish in a side
pot whose eligible-seat set is empty. -/
theorem C2_chips_vanish_after_award :
    c2Config.startingStacks.sum = 6000 ∧
    ((createEngine c2Config).toOption.bind
        (fun e0 => runLegal e0 c2Actions)).map
      (fun e => (e.state.phase, sumStacks e.state)) =
      some (.ended, 5980) := by
  exact ⟨by with_unfolding_all rfl, by with_unfolding_all rfl⟩

namespace Eng

/-- `dealToSeat` changes only `deck` and the dealt player's cards; the
seat-assignment fields survive. -/
theorem dealToSeat_seatFields (n : Nat) :
    ∀ (s : GameState) (seat : Nat) (s2 : GameState),
      dealToSeat s seat n = .ok s2 →
      s2.dealerSeat = s.dealerSeat ∧
        s2.smallBlindSeat = s.smallBlindSeat ∧
        s2.bigBlindSeat = s.bigBlindSeat ∧ s2.handId = s.handId := by
  induction n with
  | zero =>
      intro s seat s2 h
      simp only [dealToSeat, pure, Except.pure] at h
      cases h
      exact ⟨rfl, rfl, rfl, rfl⟩
  | succ n ih =>
      intro s seat s2 h
      simp only [dealToSeat] at h
      split at h
      · exact absurd h (by simp [throw, throwThe, MonadExceptOf.throw])
      · have hrec := ih _ seat s2 h
        exact hrec

/-- `dealLoop` also preserves the seat-assignment fields. -/
theorem dealLoop_seatFields (n : Nat) :
    ∀ (s : GameState) (seat : Nat) (s2 : GameState),
      dealLoop s seat n = .ok s2 →
      s2.dealerSeat = s.dealerSeat ∧
        s2.smallBlindSeat = s.smallBlindSeat ∧
        s2.bigBlindSeat = s.bigBlindSeat ∧ s2.handId = s.handId := by
  induction n with
  | zero =>
      intro s seat s2 h
      simp only [dealLoop, pure, Except.pure] at h
      cases h
      exact ⟨rfl, rfl, rfl, rfl⟩
  | succ n ih =>
      intro s seat s2 h
      simp only [dealLoop] at h
      by_cases hst : (getPlayerD s seat).status = PlayerStatus.active
      · rw [if_pos hst] at h
        cases hds : dealToSeat s seat 1 with
        | error e =>
            rw [hds] at h
            exact absurd h (by simp [Bind.bind, Except.bind])
        | ok smid =>
            rw [hds] at h
            simp only [Bind.bind, Except.bind] at h
            have h1 := dealToSeat_seatFields 1 s seat smid hds
            have h2 := ih smid (nextSeat seat) s2 h
            exact ⟨h2.1.trans h1.1, (h2.2.1).trans h1.2.1,
              (h2.2.2.1).trans h1.2.2.1, (h2.2.2.2).trans h1.2.2.2⟩
      · rw [if_neg hst] at h
        simp only [Bind.bind, Except.bind, pure, Except.pure] at h
        exact ih s (nextSeat seat) s2 h

/-- `postBlind` never touches the seat-assignment fields. -/
theorem postBlind_dealerSeat (s : GameState) (seat : Nat) (amount : ℚ) :
    (postBlind s seat amount).1.dealerSeat = s.dealerSeat := by
  unfold postBlind; dsimp only; split <;> rfl

theorem postBlind_smallBlindSeat (s : GameState) (seat : Nat)
    (amount : ℚ) :
    (postBlind s seat amount).1.smallBlindSeat = s.smallBlindSeat := by
  unfold postBlind; dsimp only; split <;> rfl

theorem postBlind_bigBlindSeat (s : GameState) (seat : Nat) (amount : ℚ) :
    (postBlind s seat amount).1.bigBlindSeat = s.bigBlindSeat := by
  unfold postBlind; dsimp only; split <;> rfl

theorem postBlind_handId (s : GameState) (seat : Nat) (amount : ℚ) :
    (postBlind s seat amount).1.handId = s.handId := by
  unfold postBlind; dsimp only; split <;> rfl

/-- The pre-deal setup state assigns the seats linearly. -/
theorem ensureHandSetupPredeal_seats (s : GameState)
    (config : GameConfig) :
    (ensureHandSetupPredeal s config).1.dealerSeat =
        (s.dealerSeat + 1) % 6 ∧
      (ensureHandSetupPredeal s config).1.smallBlindSeat =
        nextSeat ((s.dealerSeat + 1) % 6) ∧
      (ensureHandSetupPredeal s config).1.bigBlindSeat =
        nextSeat (nextSeat ((s.dealerSeat + 1) % 6)) ∧
      (ensureHandSetupPredeal s config).1.handId = s.handId := by
  refine ⟨?_, ?_, ?_, ?_⟩ <;>
    simp [ensureHandSetupPredeal, postBlind_dealerSeat,
      postBlind_smallBlindSeat, postBlind_bigBlindSeat, postBlind_handId,
      resetStreet]

/-- The seat assignment computed by `ensureHandSetup` is purely linear:
the dealer button advances by one seat and the small and big blinds are
the next two seats modulo 6, regardless of any seat's stack or status —
there is no skipping of ineligible (out) seats. -/
theorem ensureHandSetup_linear_blinds (s : GameState)
    (config : GameConfig) (s2 : GameState) (evs : List Event)
    (h : ensureHandSetup s config = .ok (s2, evs)) :
    s2.dealerSeat = (s.dealerSeat + 1) % 6 ∧
      s2.smallBlindSeat = (s.dealerSeat + 2) % 6 ∧
      s2.bigBlindSeat = (s.dealerSeat + 3) % 6 ∧
      s2.handId = s.handId := by
  simp only [ensureHandSetup] at h
  simp only [Bind.bind, Except.bind] at h
  split at h
  · exact absurd h (by simp)
  · rename_i sDealt heqDL
    have hFields := dealLoop_seatFields 12 _ _ _ heqDL
    have hPre := ensureHandSetupPredeal_seats s config
    split at h
    · exact absurd h (by simp [throw, throwThe, MonadExceptOf.throw])
    · simp only [pure, Except.pure, Except.ok.injEq, Prod.mk.injEq] at h
      obtain ⟨hs2, _⟩ := h
      rw [← hs2]
      refine ⟨?_, ?_, ?_, ?_⟩
      · show sDealt.dealerSeat = (s.dealerSeat + 1) % 6
        rw [hFields.1, hPre.1]
      · show sDealt.smallBlindSeat = (s.dealerSeat + 2) % 6
        rw [hFields.2.1, hPre.2.1]
        simp only [nextSeat]
        omega
      · show sDealt.bigBlindSeat = (s.dealerSeat + 3) % 6
        rw [hFields.2.2.1, hPre.2.2.1]
        simp only [nextSeat]
        omega
      · show sDealt.handId = s.handId
        rw [hFields.2.2.2, hPre.2.2.2]

instance : Inhabited GameState :=
  ⟨⟨1, 0, 1, 2, 3, .preflop, [], [], [], [], [], 0, 0, 0, 0, [], [], []⟩⟩

/-- C3 scenario config: six players with 1000 chips, blinds 5/10. -/
def c3Config : GameConfig :=
  ⟨"s", [1000, 1000, 1000, 1000, 1000, 1000], 5, 10⟩

/-- Hand 1 of the C3 scenario: everyone folds to the big blind. -/
def c3Hand1 : List Action :=
  [⟨4, .fold, none⟩, ⟨5, .fold, none⟩, ⟨0, .fold, none⟩,
   ⟨1, .fold, none⟩, ⟨2, .fold, none⟩]

/-- The dealer/SB/BB seats of hand 1 as dealt by `createEngine`. -/
def c3Hand1Roles : Option (Nat × Nat × Nat) :=
  (createEngine c3Config).toOption.map fun e =>
    (e.state.dealerSeat, e.state.smallBlindSeat, e.state.bigBlindSeat)

/-- The C3 scenario: play hand 1 to completion, set seat 3's stack to 0
directly (as the claimed source test does), call `startNextHand`, and
read off the dealer/SB/BB seats of hand 2. -/
def c3Hand2Roles : Option (Nat × Nat × Nat) :=
  ((createEngine c3Config).toOption.bind
      (fun e => runLegal e c3Hand1)).bind fun e =>
    let p3 := e.state.players.getD 3 default
    let surgery : Engine :=
      { e with state :=
          { e.state with
            players := e.state.players.set 3 { p3 with stack := 0 } } }
    (surgery.startNextHand).toOption.map fun e2 =>
      (e2.state.dealerSeat, e2.state.smallBlindSeat, e2.state.bigBlindSeat)

/-- A concrete state on which to witness the hand-setup lemma: the
initial state of the C3 config. -/
def c3State0 : GameState :=
  (createInitialState c3Config).toOption.getD default

def c3SetupOut : GameState × List Event :=
  (ensureHandSetup c3State0 c3Config).toOption.getD default

end Eng

open Eng in
/-- C3: the blind-rotation behaviour the specification and the source
tests demand is absent from the engine.  With all six players at 1000
chips, the code deals hand 1 with dealer=1, SB=2, BB=3 (the tests and
spec expect 0/1/2 — `createEngine` already advances the button once
before the first hand), and after ending hand 1, zeroing seat 3's stack
and calling `startNextHand`, hand 2 has dealer=2, SB=3, BB=4 — the
tests and spec expect dealer=1, SB=2, BB=4.  The out seat 3 is not
skipped when the blinds are assigned: it is simply handed the small
blind and posts nothing. -/
theorem C3_blind_skip_counterexample :
    c3Hand1Roles = some (1, 2, 3) ∧
      c3Hand1Roles ≠ some (0, 1, 2) ∧
      c3Hand2Roles = some (2, 3, 4) ∧
      c3Hand2Roles ≠ some (1, 2, 4) := by
  refine ⟨by with_unfolding_all rfl, ?_, by with_unfolding_all rfl, ?_⟩
  · intro hcontra
    have h1 : c3Hand1Roles = some (1, 2, 3) := by with_unfolding_all rfl
    rw [h1] at hcontra
    simp at hcontra
  · intro hcontra
    have h2 : c3Hand2Roles = some (2, 3, 4) := by with_unfolding_all rfl
    rw [h2] at hcontra
    simp at hcontra

open Eng in
/-- What the code actually does at hand setup (supporting evidence for
the C3 divergence): all three seats are assigned linearly with no
skipping of out seats — after every successful `ensureHandSetup`, the
dealer advances by exactly one seat mod 6 and the small and big blinds
are the next two seats mod 6 regardless of any seat's stack; in the
concrete scenario (seat 3's stack zeroed before hand 2), hand 2 gets
dealer=2, SB=3 (the out seat, which posts nothing) and BB=4. -/
theorem C3_blinds_advance_linearly :
    (∀ (s : GameState) (config : GameConfig) (s2 : GameState)
        (evs : List Event),
        ensureHandSetup s config = .ok (s2, evs) →
        s2.dealerSeat = (s.dealerSeat + 1) % 6 ∧
          s2.smallBlindSeat = (s.dealerSeat + 2) % 6 ∧
          s2.bigBlindSeat = (s.dealerSeat + 3) % 6) ∧
      c3Hand2Roles = some (2, 3, 4) := by
  refine ⟨fun s config s2 evs h => ?_, by with_unfolding_all rfl⟩
  have := ensureHandSetup_linear_blinds s config s2 evs h
  exact ⟨this.1, this.2.1, this.2.2.1⟩

namespace Eng

theorem getD_set_self {α : Type} [Inhabited α] (l : List α) (i : Nat)
    (a : α) (h : i < l.length) :
    (l.set i a).getD i default = a := by
  simp [List.getD, List.getElem?_set_self h]

theorem getD_set_ne {α : Type} [Inhabited α] (l : List α) (i j : Nat)
    (a : α) (h : i ≠ j) :
    (l.set i a).getD j default = l.getD j default := by
  simp [List.getD, List.getElem?_set_ne h]

/-- If a blind consumes the posting player's entire stack, `postBlind`
marks that player `all_in` (and the posted amount is the whole stack). -/
theorem postBlind_all_in (s : GameState) (seat : Nat) (amount : ℚ)
    (hlen : seat < s.players.length)
    (hle : (getPlayerD s seat).stack ≤ amount) :
    (getPlayerD (postBlind s seat amount).1 seat).status = .all_in ∧
      (postBlind s seat amount).2 = (getPlayerD s seat).stack := by
  unfold postBlind
  dsimp only
  rw [min_eq_left hle, sub_self]
  rw [if_pos rfl]
  dsimp only [getPlayerD]
  rw [List.set_set]
  rw [getD_set_self _ _ _ hlen]
  exact ⟨rfl, rfl⟩

/-- `dealToSeat` preserves every player's status, and the hole cards of
every seat other than the dealt one. -/
theorem dealToSeat_others (n : Nat) :
    ∀ (s : GameState) (q : Nat) (s2 : GameState),
      dealToSeat s q n = .ok s2 →
      (∀ r, (getPlayerD s2 r).status = (getPlayerD s r).status) ∧
        (∀ r, r ≠ q →
          (getPlayerD s2 r).holeCards = (getPlayerD s r).holeCards) := by
  induction n with
  | zero =>
      intro s q s2 h
      simp only [dealToSeat, pure, Except.pure] at h
      cases h
      exact ⟨fun _ => rfl, fun _ _ => rfl⟩
  | succ n ih =>
      intro s q s2 h
      simp only [dealToSeat] at h
      split at h
      · exact absurd h (by simp [throw, throwThe, MonadExceptOf.throw])
      · have hrec := ih _ q s2 h
        refine ⟨fun r => ?_, fun r hr => ?_⟩
        · rw [hrec.1 r]
          dsimp only [getPlayerD]
          by_cases hqr : q = r
          · subst hqr
            by_cases hq : q < s.players.length
            · rw [getD_set_self _ _ _ hq]
            · rw [List.set_eq_of_length_le (Nat.le_of_not_lt hq)]
          · rw [getD_set_ne _ _ _ _ hqr]
        · rw [hrec.2 r hr]
          dsimp only [getPlayerD]
          rw [getD_set_ne _ _ _ _ (fun hq => hr hq.symm)]

/-- The hole-card dealing loop never deals to a seat whose status is not
`active`: that seat's status and (empty) hole cards are untouched. -/
theorem dealLoop_skips_non_active (n : Nat) :
    ∀ (s : GameState) (start : Nat) (s2 : GameState) (seat : Nat),
      dealLoop s start n = .ok s2 →
      (getPlayerD s seat).status ≠ .active →
      (getPlayerD s2 seat).status = (getPlayerD s seat).status ∧
        (getPlayerD s2 seat).holeCards = (getPlayerD s seat).holeCards := by
  induction n with
  | zero =>
      intro s start s2 seat h _
      simp only [dealLoop, pure, Except.pure] at h
      cases h
      exact ⟨rfl, rfl⟩
  | succ n ih =>
      intro s start s2 seat h hst
      simp only [dealLoop] at h
      by_cases hact : (getPlayerD s start).status = PlayerStatus.active
      · rw [if_pos hact] at h
        cases hds : dealToSeat s start 1 with
        | error e =>
            rw [hds] at h
            exact absurd h (by simp [Bind.bind, Except.bind])
        | ok smid =>
            rw [hds] at h
            simp only [Bind.bind, Except.bind] at h
            have hOne := dealToSeat_others 1 s start smid hds
            have hseat : seat ≠ start := fun hq => hst (hq ▸ hact)
            have hstMid : (getPlayerD smid seat).status ≠ .active := by
              rw [hOne.1 seat]; exact hst
            have hrec := ih smid (nextSeat start) s2 seat h hstMid
            exact ⟨(hrec.1).trans (hOne.1 seat),
              (hrec.2).trans (hOne.2 seat hseat)⟩
      · rw [if_neg hact] at h
        simp only [Bind.bind, Except.bind, pure, Except.pure] at h
        exact ih s (nextSeat start) s2 seat h hst

/-- C10 scenario: the hand-1 big blind (seat 3) has only 5 chips against
a big blind of 10, so posting the blind puts it all-in before the deal. -/
def c10Config : GameConfig := ⟨"s", [100, 100, 100, 5, 100, 100], 5, 10⟩

/-- Everyone folds to the small blind, who checks; the small blind then
checks down every street; the river check triggers showdown. -/
def c10Prefix : List Action :=
  [⟨4, .fold, none⟩, ⟨5, .fold, none⟩, ⟨0, .fold, none⟩,
   ⟨1, .fold, none⟩, ⟨2, .check, none⟩,
   ⟨2, .check, none⟩, ⟨2, .check, none⟩]

def c10FinalCheck : Action := ⟨2, .check, none⟩

/-- Concrete inputs for the C10 witness. -/
def c10WitnessState : GameState :=
  { (default : GameState) with
    players := (List.range 6).map fun seat =>
      { seat := seat, stack := if seat = 3 then 5 else 100,
        totalCommitted := 0, streetCommitted := 0,
        status := .folded, holeCards := [] } }

/-- Target of the successful no-op dealing loop in the C10 witness. -/
def c10WitnessDealt : GameState :=
  (dealLoop (postBlind c10WitnessState 3 10).1 0 12).toOption.getD default

end Eng

open Eng in
/-- C10.  A blind that consumes the posting player's whole stack makes
that player `all_in` before the deal (`postBlind`), the dealing loop
deals only to `active` players (so the all-in blind holds zero hole
cards), and concretely, with seat 3 holding 5 chips against a big blind
of 10, the hand-1 big blind is all-in with no hole cards; checking the
hand down to showdown is fully legal, and the river check that triggers
showdown throws "evaluate7 requires exactly 7 cards." inside
`applyAction`. -/
theorem C10_blind_all_in_zero_cards :
    (∀ (s : GameState) (seat : Nat) (amount : ℚ),
        seat < s.players.length →
        (getPlayerD s seat).stack ≤ amount →
        (getPlayerD (postBlind s seat amount).1 seat).status = .all_in) ∧
      (∀ (n : Nat) (s : GameState) (start : Nat) (s2 : GameState)
          (seat : Nat),
          dealLoop s start n = .ok s2 →
          (getPlayerD s seat).status ≠ .active →
          (getPlayerD s2 seat).holeCards = (getPlayerD s seat).holeCards) ∧
      ((createEngine c10Config).toOption.map
          (fun e => ((getPlayerD e.state 3).status,
            (getPlayerD e.state 3).holeCards.length)) =
        some (.all_in, 0)) ∧
      (((createEngine c10Config).toOption.bind
          (fun e => runLegal e c10Prefix)).map
        (fun e =>
          (e.getLegalActions.map
            (fun las => actionWithinLegal las e.state c10FinalCheck),
           errOf (e.applyAction c10FinalCheck))) =
        some (.ok true, some "evaluate7 requires exactly 7 cards.")) := by
  refine ⟨fun s seat amount hlen hle =>
      (postBlind_all_in s seat amount hlen hle).1,
    fun n s start s2 seat h hst =>
      (dealLoop_skips_non_active n s start s2 seat h hst).2,
    by with_unfolding_all rfl, by with_unfolding_all rfl⟩

open Eng in
/-- Witness for the two universally quantified parts of
`C10_blind_all_in_zero_cards`, at a concrete six-player state whose
seat 3 holds 5 chips against a blind of 10 (and is non-active for the
dealing part). -/
theorem C10_blind_all_in_zero_cards_witness :
    3 < c10WitnessState.players.length ∧
      (getPlayerD c10WitnessState 3).stack ≤ 10 ∧
      (getPlayerD (postBlind c10WitnessState 3 10).1 3).status = .all_in ∧
      dealLoop (postBlind c10WitnessState 3 10).1 0 12 =
        .ok c10WitnessDealt ∧
      (getPlayerD (postBlind c10WitnessState 3 10).1 3).status ≠ .active ∧
      (getPlayerD c10WitnessDealt 3).holeCards =
        (getPlayerD (postBlind c10WitnessState 3 10).1 3).holeCards := by
  have h1 : 3 < c10WitnessState.players.length := by
    with_unfolding_all decide
  have h2 : (getPlayerD c10WitnessState 3).stack ≤ 10 := by
    with_unfolding_all decide
  have hok : dealLoop (postBlind c10WitnessState 3 10).1 0 12 =
      .ok c10WitnessDealt := by
    with_unfolding_all rfl
  have hna : (getPlayerD (postBlind c10WitnessState 3 10).1 3).status ≠
      .active := by
    with_unfolding_all decide
  exact ⟨h1, h2,
    C10_blind_all_in_zero_cards.1 c10WitnessState 3 10 h1 h2, hok, hna,
    C10_blind_all_in_zero_cards.2.1 12 _ 0 c10WitnessDealt 3 hok hna⟩

open Eng in
/-- Witness for the universally quantified part of
`C3_blinds_advance_linearly`, applied at the concrete initial state of
the C3 config. -/
theorem C3_blinds_advance_linearly_witness :
    ensureHandSetup c3State0 c3Config = .ok c3SetupOut ∧
      c3SetupOut.1.dealerSeat = (c3State0.dealerSeat + 1) % 6 ∧
      c3SetupOut.1.smallBlindSeat = (c3State0.dealerSeat + 2) % 6 ∧
      c3SetupOut.1.bigBlindSeat = (c3State0.dealerSeat + 3) % 6 := by
  have hok : ensureHandSetup c3State0 c3Config = .ok c3SetupOut := by
    with_unfolding_all rfl
  have := C3_blinds_advance_linearly.1 c3State0 c3Config c3SetupOut.1
    c3SetupOut.2 (by rw [hok])
  exact ⟨hok, this⟩

end CardPT

namespace CardPT
namespace Eng

def isOkE {α : Type} : Except String α → Bool
  | .ok _ => true
  | .error _ => false

/-- The raise branch of `applyPlayerAction` succeeds exactly under the
conditions of the source's three guards. -/
theorem applyRaise_requirements (s : GameState) (config : GameConfig)
    (raiseTo : ℚ)
    (hact : (getPlayerD s s.actionSeat).status = .active)
    (hseat : (getPlayerD s s.actionSeat).seat = s.actionSeat) :
    isOkE (applyPlayerAction s config ⟨s.actionSeat, .raise, some raiseTo⟩)
        = true ↔
      (0 < max 0 (s.currentBet - s.betThisRound.getD s.actionSeat 0) ∧
        s.currentBet < raiseTo ∧
        raiseTo ≤ s.betThisRound.getD s.actionSeat 0 +
          (getPlayerD s s.actionSeat).stack ∧
        (s.minRaiseTo ≤ raiseTo ∨
          raiseTo = s.betThisRound.getD s.actionSeat 0 +
            (getPlayerD s s.actionSeat).stack)) := by
  simp only [applyPlayerAction, getPlayerToAct, hact, hseat, ne_eq,
    not_true_eq_false, Bool.false_eq_true, if_false, Bind.bind, Except.bind,
    pure, Except.pure, ite_false, reduceIte]
  split_ifs with b1 b2 b3
  · simp only [isOkE, Bool.false_eq_true, false_iff]
    rintro ⟨h1, -, -, -⟩
    exact absurd h1 (not_lt.mpr b1)
  · simp only [isOkE, Bool.false_eq_true, false_iff]
    rintro ⟨-, h2, h3, -⟩
    rcases b2 with hb | hb
    · exact absurd h2 (not_lt.mpr hb)
    · exact absurd h3 (not_le.mpr hb)
  · simp only [isOkE, Bool.false_eq_true, false_iff]
    rintro ⟨-, -, -, h4⟩
    rcases h4 with hle | heq
    · exact absurd hle (not_le.mpr b3.1)
    · exact b3.2 heq
  all_goals (
    push_neg at b2 b3
    exact iff_of_true rfl ⟨not_le.mp b1, b2.1, b2.2,
      (le_or_lt s.minRaiseTo raiseTo).imp id b3⟩)

theorem getD_map_lt {α β : Type} (f : α → β) (l : List α) (q : Nat)
    (d : β) (d' : α) (h : q < l.length) :
    (l.map f).getD q d = f (l.getD q d') := by
  simp [List.getD, List.getElem?_map, List.getElem?_eq_getElem h]

/-- A full raise (at or above `minRaiseTo`) updates `lastRaiseSize` to
`raiseTo - currentBet`, sets `minRaiseTo` to `raiseTo` plus the new
`lastRaiseSize`, and reopens action for every other seat: `canRaise` is
recomputed from status/stack and `hasActedThisRound` is cleared for the
other still-active players. -/
theorem raise_full_post (s : GameState) (config : GameConfig) (raiseTo : ℚ)
    (s2 : GameState)
    (hact : (getPlayerD s s.actionSeat).status = .active)
    (hseat : (getPlayerD s s.actionSeat).seat = s.actionSeat)
    (hfull : s.minRaiseTo ≤ raiseTo)
    (h : applyPlayerAction s config ⟨s.actionSeat, .raise, some raiseTo⟩ =
      Except.ok s2) :
    s2.lastRaiseSize = raiseTo - s.currentBet ∧
    s2.minRaiseTo = raiseTo + (raiseTo - s.currentBet) ∧
    ∀ q, q < s.players.length → q ≠ s.actionSeat →
      (s.players.getD q default).seat = q →
      (s2.canRaise.getD q false =
        decide ((s.players.getD q default).status = .active ∧
          (s.players.getD q default).stack > 0)) ∧
      ((s.players.getD q default).status = .active →
        s2.hasActedThisRound.getD q true = false) := by
  simp only [applyPlayerAction, getPlayerToAct, hact, hseat, ne_eq,
    not_true_eq_false, Bool.false_eq_true, if_false, Bind.bind, Except.bind,
    pure, Except.pure, ite_false, reduceIte] at h
  split_ifs at h with b1 b2 b3 b4 b5 b6
  all_goals injection h with h
  all_goals subst h
  all_goals (
    refine ⟨by simp [markActedAfterAggression],
      by simp [markActedAfterAggression], ?_⟩
    intro q hq hne hqs
    have hAq : ¬ (s.actionSeat = q) := fun hh => hne hh.symm
    simp only [List.getD, List.get?_eq_getElem?, List.getElem?_eq_getElem hq,
      Option.getD_some] at hqs
    simp [markActedAfterAggression, List.getD, List.getElem?_set_ne,
      List.getElem?_map, List.getElem?_eq_getElem, hAq, hq, hqs, hne])

/-- A short all-in raise (below `minRaiseTo`) leaves `lastRaiseSize` and
`minRaiseTo` unchanged and only disables the actor's own `canRaise`
flag, leaving every other seat's entry as it was. -/
theorem raise_short_post (s : GameState) (config : GameConfig)
    (raiseTo : ℚ) (s2 : GameState)
    (hact : (getPlayerD s s.actionSeat).status = .active)
    (hseat : (getPlayerD s s.actionSeat).seat = s.actionSeat)
    (hshort : raiseTo < s.minRaiseTo)
    (h : applyPlayerAction s config ⟨s.actionSeat, .raise, some raiseTo⟩ =
      Except.ok s2) :
    s2.lastRaiseSize = s.lastRaiseSize ∧
    s2.minRaiseTo = s.minRaiseTo ∧
    s2.canRaise = s.canRaise.set s.actionSeat false := by
  simp only [applyPlayerAction, getPlayerToAct, hact, hseat, ne_eq,
    not_true_eq_false, Bool.false_eq_true, if_false, Bind.bind, Except.bind,
    pure, Except.pure, ite_false, reduceIte] at h
  split_ifs at h with b1 b2 b3 b4 b5
  all_goals injection h with h
  all_goals subst h
  all_goals try (exfalso; exact absurd (show s.minRaiseTo ≤ raiseTo from by assumption) (not_le.mpr hshort))
  all_goals try (exfalso; exact absurd (Or.inl hshort) (by assumption))
  all_goals simp [markActedAfterAggression]

/-- A concrete heads-up-style state used to witness the raise-semantics
theorem: seat 1 to act facing a bet of 10 with `minRaiseTo = 20`. -/
def c6State : GameState :=
  { (default : GameState) with
    actionSeat := 1
    currentBet := 10
    minRaiseTo := 20
    lastRaiseSize := 10
    players := [⟨0, 90, 10, 10, .active, []⟩,
      ⟨1, 100, 0, 0, .active, []⟩,
      ⟨2, 50, 0, 0, .folded, []⟩]
    canRaise := [true, true, false]
    hasActedThisRound := [true, false, true]
    betThisRound := [10, 0, 0] }

def c6Config : GameConfig := ⟨"s", [100, 100, 100], 1, 2⟩

end Eng

open Eng in
/-- C6: Raise semantics. Applying RAISE at the acting seat succeeds
exactly when `toCall > 0`, `currentBet < raiseTo`, and `raiseTo` is at
most the actor's all-in ceiling `betThisRound + stack`, with `raiseTo`
either at least `minRaiseTo` or exactly the all-in ceiling. A full raise
(`raiseTo ≥ minRaiseTo`) sets `lastRaiseSize` to `raiseTo - currentBet`,
sets `minRaiseTo` to `raiseTo + lastRaiseSize`, and reopens action for
the other seats (their `canRaise` is recomputed from status/stack and
still-active seats are marked not-yet-acted). A short raise
(`raiseTo < minRaiseTo`, which the guards force to be an all-in) leaves
`lastRaiseSize`/`minRaiseTo` unchanged and changes `canRaise` only by
disabling the actor's own flag. -/
theorem C6_raise_semantics (s : Eng.GameState) (config : Eng.GameConfig)
    (raiseTo : ℚ)
    (hact : (getPlayerD s s.actionSeat).status = .active)
    (hseat : (getPlayerD s s.actionSeat).seat = s.actionSeat) :
    (isOkE (applyPlayerAction s config ⟨s.actionSeat, .raise, some raiseTo⟩)
        = true ↔
      (0 < max 0 (s.currentBet - s.betThisRound.getD s.actionSeat 0) ∧
        s.currentBet < raiseTo ∧
        raiseTo ≤ s.betThisRound.getD s.actionSeat 0 +
          (getPlayerD s s.actionSeat).stack ∧
        (s.minRaiseTo ≤ raiseTo ∨
          raiseTo = s.betThisRound.getD s.actionSeat 0 +
            (getPlayerD s s.actionSeat).stack))) ∧
    (∀ s2, s.minRaiseTo ≤ raiseTo →
      applyPlayerAction s config ⟨s.actionSeat, .raise, some raiseTo⟩ =
        Except.ok s2 →
      s2.lastRaiseSize = raiseTo - s.currentBet ∧
      s2.minRaiseTo = raiseTo + (raiseTo - s.currentBet) ∧
      ∀ q, q < s.players.length → q ≠ s.actionSeat →
        (s.players.getD q default).seat = q →
        (s2.canRaise.getD q false =
          decide ((s.players.getD q default).status = .active ∧
            (s.players.getD q default).stack > 0)) ∧
        ((s.players.getD q default).status = .active →
          s2.hasActedThisRound.getD q true = false)) ∧
    (∀ s2, raiseTo < s.minRaiseTo →
      applyPlayerAction s config ⟨s.actionSeat, .raise, some raiseTo⟩ =
        Except.ok s2 →
      s2.lastRaiseSize = s.lastRaiseSize ∧
      s2.minRaiseTo = s.minRaiseTo ∧
      s2.canRaise = s.canRaise.set s.actionSeat false) :=
  ⟨applyRaise_requirements s config raiseTo hact hseat,
   fun s2 hfull h => raise_full_post s config raiseTo s2 hact hseat hfull h,
   fun s2 hshort h => raise_short_post s config raiseTo s2 hact hseat hshort h⟩

namespace GW

/-- The amount-bounds tail of the RAISE branch of `enforceSemanticGate`:
valid exactly when the amount respects the present bounds. -/
theorem gate_bounds (sel : Eng.LegalAction) (amount : ℚ) :
    ((if sel.minAmount.any fun m => amount < m then
        ({ valid := false, reason := some .illegal_action,
           message := some "RAISE amount is below minimum." } : GateResult)
      else if sel.maxAmount.any fun m => amount > m then
        { valid := false, reason := some .illegal_action,
          message := some "RAISE amount exceeds maximum." }
      else { valid := true, message := none, reason := none }).valid = true)
      ↔ ((∀ m, sel.minAmount = some m → m ≤ amount) ∧
         (∀ m, sel.maxAmount = some m → amount ≤ m)) := by
  rcases hmin : sel.minAmount with _ | m <;>
    rcases hmax : sel.maxAmount with _ | M <;>
    simp only [hmin, hmax, Option.any_some, Option.any_none,
      Option.some.injEq, forall_eq', reduceCtorEq, false_implies,
      forall_const, implies_true, true_and, and_true] <;>
    split_ifs <;>
    simp_all [decide_eq_true_eq]

end GW

open GW in
/-- C5: the authority/capability gate. (1) Under `L1_BASIC` a RAISE
intent is rejected with reason `capability_limit` regardless of the
legal-action list (authority is checked before legality). (2)
`L2_STANDARD` and `L3_EXPERIMENTAL` produce identical gate results on
every input. (3) A CALL intent is accepted iff `check` or `call` is
present in `legalActions` (under any capability). (4) Under a
non-`L1_BASIC` capability, a RAISE intent with an amount maps onto the
present one of `bet`/`raise` (preferring `bet`) and is accepted iff the
amount lies within its `[minAmount, maxAmount]` bounds inclusive. (5)
Any rejection other than the L1/RAISE authority case carries reason
`illegal_action`. -/
theorem C5_capability_gate :
    (∀ pa la, pa.type = .RAISE →
      enforceSemanticGate pa la L1_BASIC =
        ⟨false, some "L1_BASIC capability does not allow RAISE actions. Only FOLD or CALL are permitted.",
          some .capability_limit⟩) ∧
    (∀ pa la, enforceSemanticGate pa la L2_STANDARD =
      enforceSemanticGate pa la L3_EXPERIMENTAL) ∧
    (∀ pa la (cap : String), pa.type = .CALL →
      ((enforceSemanticGate pa la cap).valid = true ↔
        (la.find? (fun (a : Eng.LegalAction) =>
            decide (a.type = Eng.ActionType.check)) ≠ none ∨
         la.find? (fun (a : Eng.LegalAction) =>
            decide (a.type = Eng.ActionType.call)) ≠ none))) ∧
    (∀ la (cap : String) (amount : ℚ), cap ≠ L1_BASIC →
      ((enforceSemanticGate ⟨.RAISE, some amount⟩ la cap).valid = true ↔
        ((la.find? (fun (a : Eng.LegalAction) =>
            decide (a.type = Eng.ActionType.bet)) ≠ none ∨
          la.find? (fun (a : Eng.LegalAction) =>
            decide (a.type = Eng.ActionType.raise)) ≠ none) ∧
         (∀ m, ((match la.find? (fun (a : Eng.LegalAction) =>
               decide (a.type = Eng.ActionType.bet)) with
             | some b => some b
             | none => la.find? (fun (a : Eng.LegalAction) =>
                 decide (a.type = Eng.ActionType.raise))).getD
               default).minAmount = some m → m ≤ amount) ∧
         (∀ m, ((match la.find? (fun (a : Eng.LegalAction) =>
               decide (a.type = Eng.ActionType.bet)) with
             | some b => some b
             | none => la.find? (fun (a : Eng.LegalAction) =>
                 decide (a.type = Eng.ActionType.raise))).getD
               default).maxAmount = some m → amount ≤ m)))) ∧
    (∀ pa la (cap : String), ¬(cap = L1_BASIC ∧ pa.type = .RAISE) →
      (enforceSemanticGate pa la cap).valid = false →
      (enforceSemanticGate pa la cap).reason =
        some RejectReason.illegal_action) := by
  refine ⟨?_, ?_, ?_, ?_, ?_⟩
  · intro pa la h
    simp [enforceSemanticGate, h]
  · intro pa la
    simp [enforceSemanticGate, L1_BASIC, L2_STANDARD, L3_EXPERIMENTAL]
  · intro pa la cap h
    simp only [enforceSemanticGate, h, reduceCtorEq, and_false, if_false]
    by_cases hch :
        List.find? (fun a => decide (a.type = Eng.ActionType.check)) la = none
    · by_cases hca :
          List.find? (fun a => decide (a.type = Eng.ActionType.call)) la = none
      · rw [if_pos ⟨hch, hca⟩]
        simp [hch, hca]
      · rw [if_neg fun hand => hca hand.2]
        simp [hca]
    · rw [if_neg fun hand => hch hand.1]
      simp [hch]
  · intro la cap amount hcap
    simp only [enforceSemanticGate, eq_self_iff_true, and_true]
    rw [if_neg hcap]
    rcases hlb : List.find? (fun a => decide (a.type = Eng.ActionType.bet)) la
      with _ | b <;>
      rcases hlr : List.find?
        (fun a => decide (a.type = Eng.ActionType.raise)) la with _ | r <;>
      simp only [hlb, hlr, Option.getD_some, ne_eq, reduceCtorEq,
        not_false_eq_true, not_true_eq_false, or_self, or_true, true_or,
        false_or, or_false, true_and, false_and, gate_bounds]
  · intro pa la cap hn hv
    obtain ⟨t, amt⟩ := pa
    cases t
    · simp only [enforceSemanticGate, reduceCtorEq, and_false, if_false]
        at hv ⊢
      rcases hf : List.find? (fun a => decide (a.type = Eng.ActionType.fold))
        la with _ | x <;> simp only [hf] at hv ⊢ <;> simp_all
    · simp only [enforceSemanticGate, reduceCtorEq, and_false, if_false]
        at hv ⊢
      split_ifs at hv ⊢ <;> simp_all
    · have hcap : ¬ cap = L1_BASIC := fun hc => hn ⟨hc, rfl⟩
      simp only [enforceSemanticGate, eq_self_iff_true, and_true] at hv ⊢
      rw [if_neg hcap] at hv ⊢
      rcases hlb : List.find? (fun a => decide (a.type = Eng.ActionType.bet))
        la with _ | b <;>
        rcases hlr : List.find?
          (fun a => decide (a.type = Eng.ActionType.raise)) la with _ | r <;>
        simp only [hlb, hlr] at hv ⊢ <;> try rfl
      all_goals cases amt <;> try rfl
      all_goals simp only [Option.getD_some] at hv ⊢
      all_goals split_ifs at hv ⊢ <;> simp_all

/-- A RAISE proposal and legal-action list used to witness the gate
theorem concretely. -/
def c5Action : GW.GAction := ⟨.RAISE, some 50⟩

def c5Legal : List Eng.LegalAction :=
  [⟨.fold, none, none⟩, ⟨.call, none, none⟩,
   ⟨.raise, some 20, some 100⟩]

open GW in
/-- Witness for C5: a concrete RAISE intent under `L1_BASIC` is
rejected with reason `capability_limit`, by applying the gate
theorem at `c5Action`/`c5Legal`. -/
theorem C5_capability_gate_witness :
    c5Action.type = GActionType.RAISE ∧
    enforceSemanticGate c5Action c5Legal L1_BASIC =
      ⟨false, some "L1_BASIC capability does not allow RAISE actions. Only FOLD or CALL are permitted.",
        some RejectReason.capability_limit⟩ :=
  ⟨rfl, C5_capability_gate.1 c5Action c5Legal rfl⟩

open Eng in
/-- Witness for C6 at the concrete state `c6State` with a raise to 30:
both hypotheses hold by computation and the acceptance
characterisation follows by applying the theorem. -/
theorem C6_raise_semantics_witness :
    (getPlayerD c6State c6State.actionSeat).status = .active ∧
    (getPlayerD c6State c6State.actionSeat).seat = c6State.actionSeat ∧
    (isOkE (applyPlayerAction c6State c6Config
        ⟨c6State.actionSeat, .raise, some 30⟩) = true ↔
      (0 < max 0 (c6State.currentBet -
          c6State.betThisRound.getD c6State.actionSeat 0) ∧
        c6State.currentBet < 30 ∧
        (30 : ℚ) ≤ c6State.betThisRound.getD c6State.actionSeat 0 +
          (getPlayerD c6State c6State.actionSeat).stack ∧
        (c6State.minRaiseTo ≤ 30 ∨
          (30 : ℚ) = c6State.betThisRound.getD c6State.actionSeat 0 +
            (getPlayerD c6State c6State.actionSeat).stack))) :=
  ⟨rfl, rfl, (C6_raise_semantics c6State c6Config 30 rfl rfl).1⟩

end CardPT


namespace CardPT
namespace Eng

/-- Replay of an action list through `Engine.applyAction`. -/
def runActions (e : Engine) (as : List Action) : Except String Engine :=
  as.foldlM Engine.applyAction e

end Eng

open Eng in
/-- C7: Determinism. The shuffled deck for a hand depends only on the
string `seed ++ ":" ++ toString handId` (FNV1a32 seed hash feeding an
xorshift32 stream that drives the Fisher-Yates shuffle), and two
engines created from the same config that replay the same action
sequence end with identical boards, identical hole cards at every
seat, and identical stacks. -/
theorem C7_determinism :
    (∀ seed₁ handId₁ seed₂ handId₂,
      seed₁ ++ ":" ++ toString handId₁ = seed₂ ++ ":" ++ toString handId₂ →
      handDeck seed₁ handId₁ = handDeck seed₂ handId₂) ∧
    (∀ config actions e₁ e₂,
      createEngine config = .ok e₁ → createEngine config = .ok e₂ →
      ∀ r₁ r₂, runActions e₁ actions = .ok r₁ →
        runActions e₂ actions = .ok r₂ →
        r₁.state.board = r₂.state.board ∧
        ∀ q, (getPlayerD r₁.state q).holeCards =
            (getPlayerD r₂.state q).holeCards ∧
          (getPlayerD r₁.state q).stack = (getPlayerD r₂.state q).stack) := by
  constructor
  · intro seed₁ handId₁ seed₂ handId₂ h
    simp only [handDeck]
    rw [h]
  · intro config actions e₁ e₂ h1 h2 r₁ r₂ hr1 hr2
    have he : e₁ = e₂ := by
      rw [h1] at h2
      exact (Except.ok.injEq _ _).mp h2
    subst he
    have hr : r₁ = r₂ := by
      rw [hr1] at hr2
      exact (Except.ok.injEq _ _).mp hr2
    subst hr
    exact ⟨rfl, fun q => ⟨rfl, rfl⟩⟩

open Eng in
/-- The engine built from the C1 config, used as a concrete input for
the determinism witness. -/
def c7E : Engine :=
  (createEngine c1Config).toOption.getD ⟨c1Config, default, [], []⟩

open Eng in
/-- Witness for C7: the deck purity at the concrete hand string
`"a:7"` and the replay determinism at `c1Config` with the empty
action list. -/
theorem C7_determinism_witness :
    ("a" ++ ":" ++ toString 7 = "a" ++ ":" ++ toString 7 ∧
      handDeck "a" 7 = handDeck "a" 7) ∧
    (createEngine c1Config = .ok c7E ∧
      runActions c7E [] = .ok c7E ∧
      c7E.state.board = c7E.state.board) := by
  have hok : createEngine c1Config = .ok c7E := by with_unfolding_all rfl
  exact ⟨⟨rfl, C7_determinism.1 "a" 7 "a" 7 rfl⟩, hok, rfl,
    (C7_determinism.2 c1Config [] c7E c7E hok hok c7E c7E rfl rfl).1⟩

end CardPT

namespace CardPT
namespace GW

/-- Every rejection thrown inside `parseRawTextAsJson` is an
`mkRejected` literal, hence carries `allowManualFallback = true` and
`fallback = true`. -/
theorem parseRaw_reject (pj : String → Option Json) (raw : String)
    (rej : RejectedProposal)
    (h : parseRawTextAsJson pj raw = .error rej) :
    rej.allowManualFallback = true ∧ rej.fallback = true := by
  simp only [parseRawTextAsJson, Bind.bind, Except.bind, pure, Except.pure,
    throw, throwThe, MonadExceptOf.throw] at h
  repeat' split at h
  all_goals try exact Except.noConfusion h
  all_goals injection h with h
  all_goals subst h
  all_goals exact ⟨rfl, rfl⟩

/-- Every `REJECTED` outcome of the pipeline carries
`allowManualFallback = true` and `fallback = true`. -/
theorem rejected_props (env : PipelineEnv) (params : ProposeDecisionParams)
    (r : RejectedProposal)
    (h : proposeDecision env params = .rejected r) :
    r.allowManualFallback = true ∧ r.fallback = true := by
  simp only [proposeDecision] at h
  repeat' split at h
  all_goals try exact ProposalResult.noConfusion h
  all_goals injection h with h
  all_goals subst h
  all_goals try exact ⟨rfl, rfl⟩
  all_goals exact parseRaw_reject _ _ _ (by assumption)

/-- A transport error thrown by the adapter is remapped in place to a
rejection with reason `missing_credential` or `provider_error`. -/
theorem adapter_error_remap (env : PipelineEnv)
    (params : ProposeDecisionParams) (preset : ModelPreset) (msg : String)
    (hp : getPresetById params.presetId = some preset)
    (hm : ¬ params.actionMode = .manual)
    (hcfg : validateSeatAiConfigWithFailureSemantics params.actionMode
      (some preset) = .success)
    (hcred : (match params.credential with
      | none => CredentialResult.failure
          (createNoKeyFailure (some preset.provider))
      | some credential =>
          if credential.provider ≠ preset.provider then
            CredentialResult.failure
              (createNoKeyFailure (some preset.provider))
          else if credential.apiKey.trim = "" then
            CredentialResult.failure
              (createNoKeyFailure (some preset.provider))
          else CredentialResult.success) = CredentialResult.success)
    (hadapter : getAdapterForProvider preset.provider = true)
    (herr : env.adapterInvoke preset.provider preset.modelName
      (env.buildPrompt params.input)
      ((params.credential.map (fun c => c.apiKey)).getD "") =
        .error msg) :
    ∃ r, proposeDecision env params = .rejected r ∧
      (r.reason = RejectReason.missing_credential ∨
       r.reason = RejectReason.provider_error) := by
  simp only [proposeDecision, hp, hcfg, hcred, herr, hadapter,
    not_true_eq_false, Bool.false_eq_true, if_false, if_neg hm]
  split_ifs <;>
    first
      | exact ⟨_, rfl, Or.inl rfl⟩
      | exact ⟨_, rfl, Or.inr rfl⟩

end GW

open GW in
/-- C8: Pipeline governance. `proposeDecision` always returns exactly
one of ACCEPTED/REJECTED/FALLBACK (it is a total function of its
environment; thrown transport faults enter only through the
`adapterInvoke` error channel and are remapped where they occur);
every REJECTED outcome carries `allowManualFallback = true` (and
`fallback = true`); and when the pipeline reaches the adapter and the
adapter throws, the outcome is a rejection whose reason is
`missing_credential` or `provider_error`. -/
theorem C8_pipeline_governance :
    (∀ env params,
      (∃ a, proposeDecision env params = .accepted a) ∨
      (∃ r, proposeDecision env params = .rejected r) ∨
      (∃ f, proposeDecision env params = .fallback f)) ∧
    (∀ env params r, proposeDecision env params = .rejected r →
      r.allowManualFallback = true ∧ r.fallback = true) ∧
    (∀ env params preset msg,
      getPresetById params.presetId = some preset →
      ¬ params.actionMode = .manual →
      validateSeatAiConfigWithFailureSemantics params.actionMode
        (some preset) = .success →
      (match params.credential with
        | none => CredentialResult.failure
            (createNoKeyFailure (some preset.provider))
        | some credential =>
            if credential.provider ≠ preset.provider then
              CredentialResult.failure
                (createNoKeyFailure (some preset.provider))
            else if credential.apiKey.trim = "" then
              CredentialResult.failure
                (createNoKeyFailure (some preset.provider))
            else CredentialResult.success) = CredentialResult.success →
      getAdapterForProvider preset.provider = true →
      env.adapterInvoke preset.provider preset.modelName
        (env.buildPrompt params.input)
        ((params.credential.map (fun c => c.apiKey)).getD "") =
          .error msg →
      ∃ r, proposeDecision env params = .rejected r ∧
        (r.reason = RejectReason.missing_credential ∨
         r.reason = RejectReason.provider_error)) := by
  refine ⟨?_, ?_, ?_⟩
  · intro env params
    rcases h : proposeDecision env params with a | r | f
    · exact Or.inl ⟨a, rfl⟩
    · exact Or.inr (Or.inl ⟨r, rfl⟩)
    · exact Or.inr (Or.inr ⟨f, rfl⟩)
  · exact rejected_props
  · intro env params preset msg hp hm hcfg hcred hadapter herr
    exact adapter_error_remap env params preset msg hp hm hcfg hcred
      hadapter herr

/-- A concrete pipeline environment and parameter record (unknown
preset id) for the governance witness. -/
def c8Env : GW.PipelineEnv :=
  ⟨fun _ => none, fun _ => "", fun _ _ _ _ => .error "boom"⟩

def c8Params : GW.ProposeDecisionParams :=
  ⟨⟨none, none, none, none⟩, .ai_standard, "nope", none⟩

open GW in
/-- Witness for C8: the concrete run rejects with an `mkRejected`
record, and applying the theorem to that run yields
`allowManualFallback = true` and `fallback = true`. -/
theorem C8_pipeline_governance_witness :
    proposeDecision c8Env c8Params =
      .rejected (mkRejected RejectReason.invalid_ai_config
        "Model preset 'nope' not found.") ∧
    (mkRejected RejectReason.invalid_ai_config
      "Model preset 'nope' not found.").allowManualFallback = true ∧
    (mkRejected RejectReason.invalid_ai_config
      "Model preset 'nope' not found.").fallback = true := by
  have h : proposeDecision c8Env c8Params =
      .rejected (mkRejected RejectReason.invalid_ai_config
        "Model preset 'nope' not found.") := by
    with_unfolding_all rfl
  exact ⟨h, C8_pipeline_governance.2.1 c8Env c8Params _ h⟩

end CardPT

namespace CardPT
namespace SnapMod

/-- Concrete store for the snapshot-aliasing counterexample: the
closure state object at cell 0, the two arrays at cells 1 and 2. -/
def c9State0 : Eng.GameState := default

def c9State1 : Eng.GameState :=
  { (default : Eng.GameState) with currentBet := 99 }

def c9Heap : Heap := [.gameState c9State0, .eventArr [], .actionArr []]

def c9Refs : EngineRefs := ⟨0, 1, 2⟩

def c9Config : Eng.GameConfig := ⟨"s", [], 1, 2⟩

end SnapMod

open SnapMod in
/-- C9 counterexample: the snapshot's `state` field is the engine's
live state object, not a copy — `getSnapshot` spreads `events` and
`actionHistory` into fresh arrays but passes `state` by reference.
Writing a field through the returned `state` reference changes what
the engine itself subsequently reads at its own `stateRef`. -/
theorem C9_snapshot_state_aliased :
    (getSnapshotSem c9Heap c9Refs c9Config).2.stateRef =
      c9Refs.stateRef ∧
    readState c9Heap c9Refs.stateRef = some c9State0 ∧
    readState
      (writeState (getSnapshotSem c9Heap c9Refs c9Config).1
        (getSnapshotSem c9Heap c9Refs c9Config).2.stateRef c9State1)
      c9Refs.stateRef = some c9State1 ∧
    c9State1 ≠ c9State0 := by
  refine ⟨rfl, rfl, rfl, ?_⟩
  with_unfolding_all decide

open SnapMod in
/-- C9 (amended): `getSnapshot` allocates fresh cells for the `events`
and `actionHistory` arrays (their contents equal the engine's at call
time, existing cells are untouched, and pushing into the snapshot's
arrays does not change what the engine reads), but the `state` field
aliases the engine's live state object: writing through the snapshot's
`stateRef` overwrites the state the engine reads. -/
theorem C9_snapshot_copy_semantics (h : Heap) (e : EngineRefs)
    (config : Eng.GameConfig)
    (hs : e.stateRef < h.length) (hev : e.eventsRef < h.length)
    (hh : e.historyRef < h.length) :
    ((getSnapshotSem h e config).2.stateRef = e.stateRef) ∧
    ((getSnapshotSem h e config).2.eventsRef = h.length ∧
     (getSnapshotSem h e config).2.historyRef = h.length + 1) ∧
    (∀ r, r < h.length → (getSnapshotSem h e config).1.get? r = h.get? r) ∧
    (readEvents (getSnapshotSem h e config).1
        (getSnapshotSem h e config).2.eventsRef =
      some ((readEvents h e.eventsRef).getD [])) ∧
    (readHistory (getSnapshotSem h e config).1
        (getSnapshotSem h e config).2.historyRef =
      some ((readHistory h e.historyRef).getD [])) ∧
    (∀ es, readEvents (writeEvents (getSnapshotSem h e config).1
        (getSnapshotSem h e config).2.eventsRef es) e.eventsRef =
      readEvents h e.eventsRef) ∧
    (∀ s', readState (writeState (getSnapshotSem h e config).1
        (getSnapshotSem h e config).2.stateRef s') e.stateRef =
      some s') := by
  refine ⟨rfl, ⟨rfl, rfl⟩, ?_, ?_, ?_, ?_, ?_⟩
  · intro r hr
    simp [getSnapshotSem, List.get?_eq_getElem?, List.getElem?_append_left hr]
  · simp [getSnapshotSem, readEvents, readHistory, List.get?_eq_getElem?,
      List.getElem?_append_right (le_refl h.length)]
  · simp [getSnapshotSem, readEvents, readHistory, List.get?_eq_getElem?,
      List.getElem?_append_right (Nat.le_succ_of_le (le_refl h.length))]
  · intro es
    have hne : h.length ≠ e.eventsRef := by omega
    simp [getSnapshotSem, writeEvents, readEvents, List.get?_eq_getElem?,
      List.getElem?_set_ne hne, List.getElem?_append_left hev]
  · intro s'
    have hlt : e.stateRef <
        (h ++ [Obj.eventArr ((readEvents h e.eventsRef).getD []),
          Obj.actionArr ((readHistory h e.historyRef).getD [])]).length := by
      simp
      omega
    simp [getSnapshotSem, writeState, readState, List.get?_eq_getElem?,
      List.getElem?_set_self hlt]

open SnapMod in
/-- Witness for the amended C9 theorem at the concrete three-cell
store: the bound hypotheses hold by computation and the aliasing
consequence follows by applying the theorem. -/
theorem C9_snapshot_copy_semantics_witness :
    c9Refs.stateRef < c9Heap.length ∧
    c9Refs.eventsRef < c9Heap.length ∧
    c9Refs.historyRef < c9Heap.length ∧
    (getSnapshotSem c9Heap c9Refs c9Config).2.stateRef =
      c9Refs.stateRef ∧
    (∀ s', readState (writeState (getSnapshotSem c9Heap c9Refs c9Config).1
        (getSnapshotSem c9Heap c9Refs c9Config).2.stateRef s')
        c9Refs.stateRef = some s') := by
  refine ⟨by decide, by decide, by decide, ?_, ?_⟩
  · exact (C9_snapshot_copy_semantics c9Heap c9Refs c9Config (by decide)
      (by decide) (by decide)).1
  · exact (C9_snapshot_copy_semantics c9Heap c9Refs c9Config (by decide)
      (by decide) (by decide)).2.2.2.2.2.2

end CardPT

namespace CardPT
namespace GW

/-- A raw LLM decision object that passes schema validation but has
`confidence = 3/2`, outside `[0, 1]` — a pure semantic-sanity
violation. -/
def c4Json : Json :=
  .obj [("action", .obj [("type", .str "CALL")]),
    ("reason", .obj [("drivers", .arr
        [.obj [("key", .str "a"), ("weight", .num (1/2))],
         .obj [("key", .str "b"), ("weight", .num (1/2))]]),
      ("plan", .str "see_turn"), ("line", .str "ok")]),
    ("confidence", .num (3/2))]

/-- The typed decision `validateDecisionSchema` produces for
`c4Json`. -/
def c4Decision : Decision :=
  ⟨⟨.CALL, none⟩, ⟨[⟨"a", 1/2⟩, ⟨"b", 1/2⟩], .see_turn, none, "ok"⟩, 3/2⟩

/-- A pipeline environment whose adapter answers with the raw text
`"\x7b\x7d"` and whose JSON parser yields `c4Json`. -/
def c4Env : PipelineEnv :=
  ⟨fun _ => some c4Json, fun _ => "", fun _ _ _ _ => .ok "\x7b\x7d"⟩

def c4Params : ProposeDecisionParams :=
  ⟨⟨none, none, none, some [⟨.call, none, none⟩]⟩, .ai_standard,
    "qwen-plus", some ⟨"qwen", "k"⟩⟩

/-- The lenient per-driver loop succeeds whenever all weights are
non-negative (weights above 1 only append warnings). -/
theorem driverLoopLenient_ok (l : List Driver) :
    ∀ sum mx warns, (∀ dr ∈ l, 0 ≤ dr.weight) →
    ∃ out, driverLoopLenient l sum mx warns = .ok out := by
  induction l with
  | nil =>
      intro sum mx warns h
      exact ⟨_, rfl⟩
  | cons d rest ih =>
      intro sum mx warns h
      simp only [driverLoopLenient, isFiniteNumber, eq_self_iff_true,
        not_true, if_false, Bind.bind, Except.bind, pure, Except.pure,
        ite_false, reduceIte]
      rw [if_neg (not_lt.mpr (h d (List.mem_cons_self d rest)))]
      exact ih _ _ _ fun dr hdr => h dr (List.mem_cons_of_mem d hdr)

/-- The lenient per-driver loop throws only on a negative weight. -/
theorem driverLoopLenient_err (l : List Driver) :
    ∀ sum mx warns m, driverLoopLenient l sum mx warns = .error m →
    ∃ dr ∈ l, dr.weight < 0 := by
  induction l with
  | nil =>
      intro sum mx warns m h
      exact Except.noConfusion h
  | cons d rest ih =>
      intro sum mx warns m h
      simp only [driverLoopLenient, isFiniteNumber, eq_self_iff_true,
        not_true, if_false, Bind.bind, Except.bind, pure, Except.pure,
        ite_false, reduceIte, throw, throwThe, MonadExceptOf.throw] at h
      split at h
      · exact ⟨d, List.mem_cons_self d rest, by assumption⟩
      · obtain ⟨dr, hmem, hneg⟩ := ih _ _ _ _ h
        exact ⟨dr, List.mem_cons_of_mem d hmem, hneg⟩

/-- When every hard check passes, the pipeline validator succeeds —
over-1 weights and an out-of-band weight sum alone only warn. -/
theorem validateDecision_warn_only (d : Decision)
    (hlen : 2 ≤ d.reason.drivers.length)
    (hw : ∀ dr ∈ d.reason.drivers, 0 ≤ dr.weight)
    (hc0 : 0 ≤ d.confidence) (hc1 : d.confidence ≤ 1)
    (hline : ¬ d.reason.line.trim = "")
    (hty : ¬ d.action.type = .RAISE) :
    ∃ warns, validateDecision d = .ok warns := by
  obtain ⟨out, hout⟩ :=
    driverLoopLenient_ok d.reason.drivers 0 none [] hw
  simp only [validateDecision, hout, Bind.bind, Except.bind, pure,
    Except.pure, throw, throwThe, MonadExceptOf.throw]
  rw [if_neg (not_lt.mpr hlen)]
  rw [if_neg (by push_neg; exact ⟨hc0, hc1⟩)]
  rw [if_neg hline]
  rw [if_neg (fun hx => hty hx.1)]
  exact ⟨_, rfl⟩

/-- Every rejection of the pipeline validator comes from one of the
hard checks. -/
theorem validateDecision_err_cases (d : Decision) (m : String)
    (h : validateDecision d = .error m) :
    d.reason.drivers.length < 2 ∨
    (∃ dr ∈ d.reason.drivers, dr.weight < 0) ∨
    d.confidence < 0 ∨ 1 < d.confidence ∨
    d.reason.line.trim = "" ∨
    d.action.type = .RAISE := by
  simp only [validateDecision, Bind.bind, Except.bind, pure, Except.pure,
    throw, throwThe, MonadExceptOf.throw] at h
  split at h
  · exact Or.inl (by assumption)
  · split at h
    · rename_i hloop
      exact Or.inr (Or.inl (driverLoopLenient_err _ _ _ _ _ hloop))
    · split at h
      · rename_i hconf
        rcases hconf with hx | hx
        · exact Or.inr (Or.inr (Or.inl hx))
        · exact Or.inr (Or.inr (Or.inr (Or.inl hx)))
      · split at h
        · exact Or.inr (Or.inr (Or.inr (Or.inr (Or.inl (by assumption)))))
        · split at h
          · rename_i hra
            exact Or.inr (Or.inr (Or.inr (Or.inr (Or.inr hra.1))))
          · exact Except.noConfusion h

/-- A validator error inside the live pipeline becomes a REJECTED
outcome with reason `schema_mismatch`. -/
theorem validator_error_to_schema_mismatch (env : PipelineEnv)
    (params : ProposeDecisionParams) (preset : ModelPreset)
    (rawText : String) (parsed : Json) (d : Decision) (m : String)
    (hp : getPresetById params.presetId = some preset)
    (hm : ¬ params.actionMode = .manual)
    (hcfg : validateSeatAiConfigWithFailureSemantics params.actionMode
      (some preset) = .success)
    (hcred : (match params.credential with
      | none => CredentialResult.failure
          (createNoKeyFailure (some preset.provider))
      | some credential =>
          if credential.provider ≠ preset.provider then
            CredentialResult.failure
              (createNoKeyFailure (some preset.provider))
          else if credential.apiKey.trim = "" then
            CredentialResult.failure
              (createNoKeyFailure (some preset.provider))
          else CredentialResult.success) = CredentialResult.success)
    (hadapter : getAdapterForProvider preset.provider = true)
    (hok : env.adapterInvoke preset.provider preset.modelName
      (env.buildPrompt params.input)
      ((params.credential.map (fun c => c.apiKey)).getD "") = .ok rawText)
    (hparse : parseRawTextAsJson env.parseJson rawText = .ok parsed)
    (hschema : validateDecisionSchema (normalizeDecisionSchema parsed) =
      .ok d)
    (hval : validateDecision d = .error m) :
    proposeDecision env params = .rejected (mkRejected .schema_mismatch
      ("Decision validation failed: " ++ m)) := by
  simp only [proposeDecision, hp, hcfg, hcred, hok, hparse, hschema, hval,
    hadapter, not_true_eq_false, Bool.false_eq_true, if_false, if_neg hm]

end GW

open GW in
/-- C4 counterexample: a decision that passes schema validation but
violates only a semantic-sanity check (confidence `3/2 ∉ [0,1]`) is
REJECTED by the live pipeline with reason `schema_mismatch`, not
accepted with a warning. -/
theorem C4_pipeline_rejects_sanity_failure :
    validateDecisionSchema (normalizeDecisionSchema c4Json) =
      .ok c4Decision ∧
    c4Decision.confidence = 3/2 ∧
    proposeDecision c4Env c4Params =
      .rejected (mkRejected .schema_mismatch
        "Decision validation failed: Confidence must be between 0 and 1.") := by
  refine ⟨?_, ?_, ?_⟩ <;> with_unfolding_all rfl

open GW in
/-- C4 (amended): in the live pipeline validator only the over-1
driver weight and out-of-band weight-sum checks are advisory (the
validator succeeds, returning warnings, whenever it has at least two
drivers with non-negative weights, confidence in `[0, 1]`, a non-empty
line and a non-RAISE action); every validator rejection comes from one
of the hard checks (fewer than two drivers, a negative weight,
confidence outside `[0, 1]`, an empty line, or a RAISE action); and a
validator error inside `proposeDecision` produces a REJECTED outcome
with reason `schema_mismatch` — the sanity layer is not warn-only in
the pipeline. -/
theorem C4_sanity_layer_semantics :
    (∀ d : Decision, 2 ≤ d.reason.drivers.length →
      (∀ dr ∈ d.reason.drivers, 0 ≤ dr.weight) →
      0 ≤ d.confidence → d.confidence ≤ 1 →
      ¬ d.reason.line.trim = "" → ¬ d.action.type = .RAISE →
      ∃ warns, validateDecision d = .ok warns) ∧
    (∀ d m, validateDecision d = .error m →
      d.reason.drivers.length < 2 ∨
      (∃ dr ∈ d.reason.drivers, dr.weight < 0) ∨
      d.confidence < 0 ∨ 1 < d.confidence ∨
      d.reason.line.trim = "" ∨ d.action.type = .RAISE) ∧
    (∀ env params preset rawText parsed d m,
      getPresetById params.presetId = some preset →
      ¬ params.actionMode = .manual →
      validateSeatAiConfigWithFailureSemantics params.actionMode
        (some preset) = .success →
      (match params.credential with
        | none => CredentialResult.failure
            (createNoKeyFailure (some preset.provider))
        | some credential =>
            if credential.provider ≠ preset.provider then
              CredentialResult.failure
                (createNoKeyFailure (some preset.provider))
            else if credential.apiKey.trim = "" then
              CredentialResult.failure
                (createNoKeyFailure (some preset.provider))
            else CredentialResult.success) = CredentialResult.success →
      getAdapterForProvider preset.provider = true →
      env.adapterInvoke preset.provider preset.modelName
        (env.buildPrompt params.input)
        ((params.credential.map (fun c => c.apiKey)).getD "") =
          .ok rawText →
      parseRawTextAsJson env.parseJson rawText = .ok parsed →
      validateDecisionSchema (normalizeDecisionSchema parsed) = .ok d →
      validateDecision d = .error m →
      proposeDecision env params = .rejected (mkRejected .schema_mismatch
        ("Decision validation failed: " ++ m))) := by
  refine ⟨?_, ?_, ?_⟩
  · intro d hlen hw hc0 hc1 hline hty
    exact validateDecision_warn_only d hlen hw hc0 hc1 hline hty
  · intro d m h
    exact validateDecision_err_cases d m h
  · intro env params preset rawText parsed d m hp hm hcfg hcred hadapter
      hok hparse hschema hval
    exact validator_error_to_schema_mismatch env params preset rawText
      parsed d m hp hm hcfg hcred hadapter hok hparse hschema hval

open GW in
/-- Witness for C4: the concrete run through part (3) of the theorem,
with every hypothesis discharged by computation. -/
theorem C4_sanity_layer_semantics_witness :
    getPresetById c4Params.presetId =
      some ⟨"qwen-plus", "qwen", "qwen-plus", L2_STANDARD⟩ ∧
    validateDecision c4Decision =
      .error "Confidence must be between 0 and 1." ∧
    proposeDecision c4Env c4Params =
      .rejected (mkRejected .schema_mismatch
        ("Decision validation failed: " ++
          "Confidence must be between 0 and 1.")) := by
  refine ⟨?_, ?_, ?_⟩
  · with_unfolding_all rfl
  · with_unfolding_all rfl
  · exact C4_sanity_layer_semantics.2.2 c4Env c4Params
      ⟨"qwen-plus", "qwen", "qwen-plus", L2_STANDARD⟩ "\x7b\x7d" c4Json
      c4Decision "Confidence must be between 0 and 1."
      (by with_unfolding_all rfl) (by decide)
      (by with_unfolding_all rfl) (by with_unfolding_all rfl)
      (by with_unfolding_all rfl) rfl
      (by with_unfolding_all rfl) (by with_unfolding_all rfl)
      (by with_unfolding_all rfl)

end CardPT
